import Mathlib

/-
Verification of the drmemtrace trace scheduler
(`clients/drcachesim/scheduler/scheduler.cpp`) against its natural-language
specification.

This file contains a shallow embedding of the scheduler routines that the
claims refer to, translated from the C++ source:

* `scale_blocked_time`, `syscall_incurs_switch` (blocking model, lines
  2618-2664 of scheduler.cpp);
* the ready/unscheduled priority queues and `pop_from_ready_queue`
  (lines 2495-2616);
* `record_schedule_segment` / `close_schedule_segment` and the replay-file
  checker (lines 110-125, 2411-2493);
* `skip_instructions` / `clear_input_queue` (lines 2322-2395);
* `process_marker` (lines 3183-3334);
* the `MAP_TO_ANY_OUTPUT` record-processing step of `next_record`
  (lines 3500-3608 and the post-switch quantum adjustment, 3632-3660);
* `set_cur_input` (lines 2666-2792), `pick_next_input` for
  `MAP_TO_ANY_OUTPUT` (lines 2943-3181), and `eof_or_idle` (3798-3867).

Modelling conventions:
* `uint64_t` values are `Nat`; where the C++ subtraction may wrap, the
  explicit `u64sub` (subtraction modulo 2^64) is used.
* `double` option values are modelled as exact rationals `ℚ`;
  `static_cast<uint64_t>` of a non-negative double is `Int.toNat ∘ Int.floor`.
* Readers are opaque record producers (spec section 6); only the counters the
  scheduler queries (`get_instruction_ordinal`, `get_last_timestamp`,
  `get_version`) and an end-of-trace test are modelled.
* The high-level (memref) record schema is modelled; for it
  `record_type_is_instr_boundary record prev` is simply
  `record_type_is_instr record` (scheduler.cpp line 248-252).
-/

namespace Drm

/-- Subtraction of 64-bit unsigned integers with wrap-around, as C++ computes
`a - b` on `uint64_t` values `a b < 2^64`. -/
def u64sub (a b : Nat) : Nat :=
  (2 ^ 64 + a - b) % 2 ^ 64

/-- Largest `uint64_t` value, `std::numeric_limits<uint64_t>::max()`. -/
def U64MAX : Nat := 2 ^ 64 - 1

theorem u64sub_eq_sub {a b : Nat} (hba : b ≤ a) (ha : a < 2 ^ 64) :
    u64sub a b = a - b := by
  unfold u64sub
  omega

/-- Stream statuses returned by the scheduler
(`sched_type_t::stream_status_t`). -/
inductive StreamStatus where
  | ok
  | eof
  | waitStatus
  | skipped
  | idle
  | invalid
  | regionInvalid
  | notImplemented
  deriving DecidableEq, Repr

/-- Mapping modes (spec section 4.1). -/
inductive MappingMode where
  | asPreviously
  | toAnyOutput
  | toConsistentOutput
  | toRecordedOutput
  deriving DecidableEq, Repr

/-- Quantum units (spec section 4.5). -/
inductive QuantumUnit where
  | instructions
  | time
  deriving DecidableEq, Repr

/-- Scheduler options used by the modelled routines
(spec section 6, "Scheduler options").  The `double`-typed options are exact
rationals here. -/
structure SchedOptions where
  mapping : MappingMode := .toAnyOutput
  quantum_unit : QuantumUnit := .instructions
  quantum_duration_instrs : Nat := 10000000
  quantum_duration_us : ℚ := 5000
  time_units_per_us : ℚ := 100
  block_time_multiplier : ℚ := 1
  block_time_max_us : Nat := 25000000
  blocking_switch_threshold : Nat := 100
  syscall_switch_threshold : Nat := 30000000
  honor_direct_switches : Bool := true
  schedule_record_enabled : Bool := false
  deriving DecidableEq

/-- Marker kinds used by the scheduler core (spec section 3). -/
inductive TraceMarkerType where
  | timestampMarker
  | syscall
  | maybeBlockingSyscall
  | syscallUnschedule
  | syscallSchedule
  | syscallArgTimeout
  | directThreadSwitch
  | contextSwitchStart
  | contextSwitchEnd
  | syscallTraceStart
  | syscallTraceEnd
  | windowId
  | otherMarker
  deriving DecidableEq, Repr

/-- Trace records in the high-level (memref) schema: each record carries a
tid; markers carry a kind and value (spec section 3, "Record"). -/
inductive Record where
  | instr (tid : Nat) (pc : Nat) (sz : Nat)
  | marker (tid : Nat) (kind : TraceMarkerType) (value : Nat)
  | threadExit (tid : Nat)
  | invalidRec
  deriving DecidableEq, Repr

/-- Scheduler record-kind query `record_type_is_instr` (memref schema,
scheduler.cpp lines 230-235). -/
def record_type_is_instr : Record → Bool
  | .instr _ _ _ => true
  | _ => false

/-- Scheduler query `record_type_is_instr_boundary` for the memref schema
(scheduler.cpp lines 246-252): the previous record is ignored. -/
def record_type_is_instr_boundary (record prev : Record) : Bool :=
  record_type_is_instr record

/-- Scheduler query `record_type_is_marker` (scheduler.cpp lines 254-265). -/
def record_type_is_marker : Record → Option (TraceMarkerType × Nat)
  | .marker _ kind value => some (kind, value)
  | _ => none

/-- Scheduler query `record_type_is_encoding`: always false for the memref
schema (scheduler.cpp lines 237-244). -/
def record_type_is_encoding (_ : Record) : Bool := false

/-- Constructor `create_region_separator_marker` (memref schema,
scheduler.cpp lines 295-307). -/
def create_region_separator_marker (tid value : Nat) : Record :=
  .marker tid .windowId value

/-- Constructor `create_thread_exit` (memref schema, scheduler.cpp
lines 309-318). -/
def create_thread_exit (tid : Nat) : Record :=
  .threadExit tid

/-- Setter `record_type_set_tid` (scheduler.cpp lines 222-228): rewrites the
tid carried by a record. -/
def record_set_tid (tid : Nat) : Record → Record
  | .instr _ pc sz => .instr tid pc sz
  | .marker _ kind value => .marker tid kind value
  | .threadExit _ => .threadExit tid
  | .invalidRec => .invalidRec

/-- Model of the opaque reader collaborator (spec section 6): the counters the
scheduler queries plus an end-of-trace test.  `num_instrs` is the total
instruction count of the trace; the reader is at its end sentinel once its
instruction ordinal reaches it. -/
structure Reader where
  instruction_ordinal : Nat := 0
  num_instrs : Nat := 0
  last_timestamp : Nat := 0
  first_timestamp : Nat := 0
  version : Nat := 0
  deriving DecidableEq, Repr

/-- Reader query `*reader == *reader_end` (end of trace). -/
def reader_at_end (r : Reader) : Bool :=
  decide (r.num_instrs ≤ r.instruction_ordinal)

/-- Reader operation `skip_instructions(n)`: advances the instruction ordinal,
stopping at the end of the trace. -/
def reader_skip_instructions (r : Reader) (n : Nat) : Reader :=
  { r with instruction_ordinal := min (r.instruction_ordinal + n) r.num_instrs }

/-- Modelled from the spec: the trace format version
`TRACE_ENTRY_VERSION_FREQUENT_TIMESTAMPS` that introduced timestamps
bracketing syscalls (spec section 4.7 "frequent-timestamp version"; the
constant lives in `trace_entry.h`, which is not part of the sources; its
concrete value is irrelevant to the claims, only the comparison against the
reader's version matters). -/
def TRACE_ENTRY_VERSION_FREQUENT_TIMESTAMPS : Nat := 6

/-- Per-input scheduler state `input_info_t` (declared in scheduler.h, which
is not among the sources; fields follow the spec section 3 "Input" list and
the uses in scheduler.cpp). -/
structure InputInfo where
  index : Nat := 0
  workload : Nat := 0
  tid : Nat := 0
  priority : Int := 0
  binding : List Nat := []
  queue_counter : Nat := 0
  blocked_time : Nat := 0
  blocked_start_time : Nat := 0
  unscheduled : Bool := false
  skip_next_unscheduled : Bool := false
  switch_to_input : Option Nat := none
  prev_output : Option Nat := none
  at_eof : Bool := false
  queue : List Record := []
  instrs_in_quantum : Nat := 0
  time_spent_in_quantum : Nat := 0
  prev_time_in_quantum : Nat := 0
  processing_syscall : Bool := false
  processing_maybe_blocking_syscall : Bool := false
  pre_syscall_timestamp : Nat := 0
  syscall_timeout_arg : Nat := 0
  instrs_pre_read : Nat := 0
  cur_region : Nat := 0
  in_cur_region : Bool := false
  needs_init : Bool := false
  needs_advance : Bool := false
  needs_roi : Bool := true
  switching_pre_instruction : Bool := false
  order_by_timestamp : Bool := false
  base_timestamp : Nat := 0
  next_timestamp : Nat := 0
  regions_of_interest : List (Nat × Nat) := []
  reader : Reader := {}
  deriving DecidableEq, Repr

/-- Helper `get_instr_ordinal` (scheduler.cpp lines 2154-2163): the exposed
instruction count is the reader ordinal minus the pre-read count. -/
def get_instr_ordinal (input : InputInfo) : Nat :=
  input.reader.instruction_ordinal - input.instrs_pre_read

/-- Function `scale_blocked_time` (scheduler.cpp lines 2618-2633): multiply
the latency by `block_time_multiplier`, truncate the double product to
`uint64_t`, cap at `block_time_max_us`, then scale by `time_units_per_us`
and truncate again. -/
def scale_blocked_time (o : SchedOptions) (initial_time : Nat) : Nat :=
  let scaled_us : Nat := (⌊(initial_time : ℚ) * o.block_time_multiplier⌋).toNat
  let capped_us : Nat :=
    if scaled_us > o.block_time_max_us then o.block_time_max_us else scaled_us
  (⌊(capped_us : ℚ) * o.time_units_per_us⌋).toNat

/-- Formalisation of the SPEC's scaling formula (spec sections 4.7 and 8):
`scale(x) = clamp(x·block_time_multiplier, 0, block_time_max_us) ·
time_units_per_us`, read as one exact computation over the rationals with a
single final conversion to an integer count.  This is the spec-side
definition used to compare against the source's `scale_blocked_time`. -/
def spec_scale (o : SchedOptions) (x : Nat) : Nat :=
  (⌊(max 0 (min ((x : ℚ) * o.block_time_multiplier) (o.block_time_max_us : ℚ)))
      * o.time_units_per_us⌋).toNat

/-- Function `syscall_incurs_switch` (scheduler.cpp lines 2635-2664).
Returns the pair (switch decision, `blocked_time` output parameter). -/
def syscall_incurs_switch (o : SchedOptions) (input : InputInfo) : Bool × Nat :=
  let post_time := input.reader.last_timestamp
  if input.reader.version < TRACE_ENTRY_VERSION_FREQUENT_TIMESTAMPS then
    (input.processing_maybe_blocking_syscall, o.blocking_switch_threshold)
  else
    let latency := u64sub post_time input.pre_syscall_timestamp
    let threshold := if input.processing_maybe_blocking_syscall then
        o.blocking_switch_threshold
      else o.syscall_switch_threshold
    (decide (latency ≥ threshold), scale_blocked_time o latency)

/-- Modelled from the spec: timestamp-delta key of the priority-queue order
(spec section 4.2; the queue comparator lives in scheduler.h /
flexible_queue.h, which are not among the sources): the delta
`next_timestamp − base_timestamp` when timestamp ordering is on, else `0`. -/
def tsDelta (a : InputInfo) : Nat :=
  if a.order_by_timestamp then u64sub a.next_timestamp a.base_timestamp else 0

/-- Modelled from the spec: the strict priority-queue order of section 4.2,
`(priority DESC, timestamp delta ASC, queue_counter ASC)`: `queueLt a b`
holds when `a` is popped before `b`. -/
def queueLt (a b : InputInfo) : Prop :=
  b.priority < a.priority ∨
    (a.priority = b.priority ∧
      (tsDelta a < tsDelta b ∨
        (tsDelta a = tsDelta b ∧ a.queue_counter < b.queue_counter)))

instance : DecidableRel queueLt := by
  unfold queueLt
  infer_instance

/-- Non-strict companion of [[queueLt]]; used for the sorted-list model of the
priority queues. -/
def queueLe (a b : InputInfo) : Prop := ¬queueLt b a

instance : DecidableRel queueLe := by
  unfold queueLe
  infer_instance

instance : IsTotal InputInfo queueLe := by
  constructor
  intro a b
  unfold queueLe queueLt
  by_cases hp : a.priority = b.priority
  · by_cases hd : tsDelta a = tsDelta b
    · omega
    · omega
  · omega

instance : IsTrans InputInfo queueLe := by
  constructor
  intro a b c hab hbc
  unfold queueLe queueLt at *
  rcases Int.lt_trichotomy a.priority b.priority with h1 | h1 | h1 <;>
    rcases Int.lt_trichotomy b.priority c.priority with h2 | h2 | h2 <;>
      rcases Nat.lt_trichotomy (tsDelta a) (tsDelta b) with h3 | h3 | h3 <;>
        rcases Nat.lt_trichotomy (tsDelta b) (tsDelta c) with h4 | h4 | h4 <;>
          omega

/-- Priority-queue push, modelled on the sorted-list representation: insert
keeping the list sorted by the queue order (spec section 4.2: the queue is a
priority queue with FIFO tie-break through `queue_counter`). -/
def rqPush (q : List InputInfo) (x : InputInfo) : List InputInfo :=
  q.orderedInsert queueLe x

/-- Priority-queue `find` by input: the queues hold each input at most once,
identified by its ordinal. -/
def findByIndex (q : List InputInfo) (idx : Nat) : Option InputInfo :=
  q.find? (fun x => x.index = idx)

/-- Priority-queue `erase(input)`: removes the entries with the given input
ordinal. -/
def eraseByIndex (q : List InputInfo) (idx : Nat) : List InputInfo :=
  q.filter (fun x => x.index ≠ idx)

/-- Global scheduler state: the two priority queues with their monotonic
counters, the inputs currently running on other outputs (`others`), the
atomic live counters, and the configured context-switch injection sequences
(spec section 3, "Global state"). -/
structure SchedState where
  ready : List InputInfo := []
  unscheduled : List InputInfo := []
  others : List InputInfo := []
  ready_counter : Nat := 0
  unscheduled_counter : Nat := 0
  num_blocked : Nat := 0
  live_input_count : Nat := 0
  live_replay_output_count : Nat := 0
  switch_sequence_loaded : Bool := false
  switch_sequence_process : List Record := []
  switch_sequence_thread : List Record := []
  deriving DecidableEq

/-- Function `add_to_unscheduled_queue` (scheduler.cpp lines 2503-2514):
assign a fresh counter from `unscheduled_counter_` and push. -/
def add_to_unscheduled_queue (s : SchedState) (input : InputInfo) : SchedState :=
  let input := { input with queue_counter := s.unscheduled_counter + 1 }
  { s with
    unscheduled_counter := s.unscheduled_counter + 1
    unscheduled := rqPush s.unscheduled input }

/-- Function `add_to_ready_queue` (scheduler.cpp lines 2516-2536): an
unscheduled non-blocked input is diverted to the unscheduled queue; otherwise
bump `num_blocked_` for a blocked input, assign a fresh counter from
`ready_counter_`, and push. -/
def add_to_ready_queue (s : SchedState) (input : InputInfo) : SchedState :=
  if input.unscheduled ∧ input.blocked_time = 0 then
    add_to_unscheduled_queue s input
  else
    let s := if input.blocked_time > 0 then
        { s with num_blocked := s.num_blocked + 1 }
      else s
    let input := { input with queue_counter := s.ready_counter + 1 }
    { s with
      ready_counter := s.ready_counter + 1
      ready := rqPush s.ready input }

/-- Binding test of `pop_from_ready_queue` (scheduler.cpp line 2559): the
input may run on the requesting output when its binding set is empty or
contains the output. -/
def bindingAllows (x : InputInfo) (for_output : Nat) : Bool :=
  x.binding = [] ∨ for_output ∈ x.binding

/-- Still-blocked test of `pop_from_ready_queue` (scheduler.cpp lines
2563-2575): the input has a pending blocked time whose interval has not yet
expired at `cur_time`. -/
def stillBlocked (cur_time : Nat) (x : InputInfo) : Bool :=
  x.blocked_time > 0 ∧ u64sub cur_time x.blocked_start_time < x.blocked_time

/-- Scan loop of `pop_from_ready_queue` (scheduler.cpp lines 2549-2581), over
the queue in pop order: returns (binding-skipped entries, still-blocked
entries, the chosen entry if any, the un-scanned remainder of the queue). -/
def popScan (for_output cur_time : Nat) :
    List InputInfo →
      List InputInfo × List InputInfo × Option InputInfo × List InputInfo
  | [] => ([], [], none, [])
  | x :: rest =>
    if bindingAllows x for_output then
      if stillBlocked cur_time x then
        let (sk, bl, res, q) := popScan for_output cur_time rest
        (sk, x :: bl, res, q)
      else ([], [], some x, rest)
    else
      let (sk, bl, res, q) := popScan for_output cur_time rest
      (x :: sk, bl, res, q)

/-- Function `pop_from_ready_queue` (scheduler.cpp lines 2538-2616), for the
non-randomized path (`randomize_next_input` off): scan the queue in priority
order for the first entry whose binding allows the output and whose blocked
interval has expired; re-insert binding-skipped entries with their original
counters, re-add still-blocked entries through `add_to_ready_queue` (fresh
counters), report Idle when nothing was found but blocked entries remain, and
reset the chosen entry's `blocked_time` and `unscheduled` flags.  Returns
(new input if any, status, updated scheduler state). -/
def pop_from_ready_queue (for_output out_time : Nat) (s : SchedState) :
    Option InputInfo × StreamStatus × SchedState :=
  let cur_time := if s.num_blocked > 0 then out_time else 0
  let scan := popScan for_output cur_time s.ready
  let skipped := scan.1
  let blocked := scan.2.1
  let res := scan.2.2.1
  let rest := scan.2.2.2
  let popped_blocked :=
    blocked.length +
      (match res with
       | some x => if x.blocked_time > 0 then 1 else 0
       | none => 0)
  let status := if res = none ∧ blocked ≠ [] then
      StreamStatus.idle
    else StreamStatus.ok
  let s := { s with ready := rest, num_blocked := s.num_blocked - popped_blocked }
  let s := { s with ready := skipped.foldl rqPush s.ready }
  let s := blocked.foldl add_to_ready_queue s
  (res.map (fun x => { x with blocked_time := 0, unscheduled := false }),
   status, s)

/-- Types of recorded schedule segments (`schedule_record_t::record_type_t`,
spec section 3, "Schedule segment"). -/
inductive SegType where
  | version
  | defaultSeg
  | skipSeg
  | syntheticEnd
  | idle
  | footer
  deriving DecidableEq, Repr

/-- One recorded schedule segment (`schedule_record_t`): `key` is the input
ordinal (or version number), `value` the start instruction (or, for Idle
segments once closed, the idle duration). -/
structure ScheduleRecord where
  type : SegType
  key : Nat
  value : Nat
  stop : Nat
  timestamp : Nat
  deriving DecidableEq, Repr

/-- Function `record_schedule_segment` (scheduler.cpp lines 2411-2436): an
Idle request is dropped (merged) when the most recent segment of the output
is already Idle; otherwise the segment is appended.  `now` is the wall-clock
micro-second time (`get_time_micros()`). -/
def record_schedule_segment (recs : List ScheduleRecord) (type : SegType)
    (input start stop now : Nat) : List ScheduleRecord :=
  if type = SegType.idle ∧ (recs.getLast?.map (·.type)) = some SegType.idle then
    recs
  else
    recs ++ [⟨type, input, start, stop, now⟩]

/-- Function `close_schedule_segment` (scheduler.cpp lines 2438-2493): a Skip
segment already has its stop value; an Idle segment gets its idle duration
(`now` minus its recorded timestamp); otherwise the last segment's stop
instruction is stamped with the input's instruction ordinal (the maximum
`uint64_t` at end of trace, plus one when switching pre-instruction, which
also clears that flag).  Returns the updated segment list and input. -/
def close_schedule_segment (recs : List ScheduleRecord) (input : InputInfo)
    (now : Nat) : List ScheduleRecord × InputInfo :=
  match recs.getLast? with
  | none => (recs, input)
  | some lastRec =>
    if lastRec.type = SegType.skipSeg then (recs, input)
    else if lastRec.type = SegType.idle then
      (recs.dropLast ++ [{ lastRec with value := u64sub now lastRec.timestamp }],
       input)
    else
      let instr_ord := if input.at_eof ∨ reader_at_end input.reader then U64MAX
        else get_instr_ordinal input
      let pr := if input.switching_pre_instruction then
          (instr_ord + 1, { input with switching_pre_instruction := false })
        else (instr_ord, input)
      (recs.dropLast ++ [{ lastRec with stop := pr.1 }], pr.2)

/-- Function `record_schedule_skip` (scheduler.cpp lines 2283-2320): close any
prior Default segment of the same input, insert a dummy `Default(0,0)` when
the skip would be the first record after the Version entry, then append a
Skip segment and a Default segment starting at the skip's stop. -/
def record_schedule_skip (recs : List ScheduleRecord) (input : InputInfo)
    (start stop now : Nat) : List ScheduleRecord × InputInfo :=
  let cl :=
    match recs.getLast? with
    | some lastRec =>
      if lastRec.type = SegType.defaultSeg ∧ lastRec.key = input.index then
        close_schedule_segment recs input now
      else (recs, input)
    | none => (recs, input)
  let recs := cl.1
  let input := cl.2
  let recs := if recs.length = 1 then
      record_schedule_segment recs .defaultSeg input.index 0 0 now
    else recs
  let recs := record_schedule_segment recs .skipSeg input.index start stop now
  let recs := record_schedule_segment recs .defaultSeg input.index stop 0 now
  (recs, input)

/-- Loop of `replay_file_checker_t::check` (scheduler.cpp lines 110-125),
carrying the `prev_was_idle` flag. -/
def replay_check_loop (prev_was_idle : Bool) : List ScheduleRecord → String
  | [] => ""
  | r :: rest =>
    if r.type = SegType.idle then
      if prev_was_idle then "Error: consecutive idle records"
      else replay_check_loop true rest
    else replay_check_loop false rest

/-- Function `replay_file_checker_t::check` (scheduler.cpp lines 110-125):
reject schedule files with two consecutive Idle records. -/
def replay_file_check (recs : List ScheduleRecord) : String :=
  replay_check_loop false recs

/-- A segment list with no two consecutive Idle entries (spec section 3,
invariant 8). -/
def noConsecIdle (recs : List ScheduleRecord) : Prop :=
  recs.Chain' (fun a b => ¬(a.type = SegType.idle ∧ b.type = SegType.idle))

/-- Statistics counters of one output
(`memtrace_stream_t::schedule_statistic_t`, spec section 3, "Output"). -/
structure Stats where
  switch_input_to_input : Nat := 0
  switch_input_to_idle : Nat := 0
  switch_idle_to_input : Nat := 0
  switch_nop : Nat := 0
  quantum_preempts : Nat := 0
  direct_switch_attempts : Nat := 0
  direct_switch_successes : Nat := 0
  migrations : Nat := 0
  deriving DecidableEq, Repr

/-- Per-output scheduler state `output_info_t` (declared in scheduler.h, not
among the sources; fields follow the spec section 3 "Output" list and the
uses in scheduler.cpp).  `cur_input` holds the running input's state itself
(value form of `cur_input` plus `inputs_[cur_input]`); `prev_input_index` and
`prev_input_workload` model the `prev_input` ordinal and the workload lookup
made through it. -/
structure OutputState where
  cur_input : Option InputInfo := none
  prev_input_index : Option Nat := none
  prev_input_workload : Option Nat := none
  cur_time : Nat := 0
  in_kernel_code : Bool := false
  in_context_switch_code : Bool := false
  hit_switch_code_end : Bool := false
  last_record : Record := .invalidRec
  wait_start_time : Nat := 0
  waiting : Bool := false
  stream_instruction_ordinal : Nat := 0
  record : List ScheduleRecord := []
  stats : Stats := {}
  deriving DecidableEq

/-- Function `mark_input_eof` (scheduler.cpp lines 3784-3796), adapted to the
value representation: marking also updates any aliases of the same input
sitting in the queues (the C++ containers share one object per input), and
decrements `live_input_count_` exactly once. -/
def mark_input_eof (s : SchedState) (input : InputInfo) :
    SchedState × InputInfo :=
  if input.at_eof then (s, input)
  else
    let setEof : List InputInfo → List InputInfo :=
      fun q => q.map (fun x => if x.index = input.index then
          { x with at_eof := true } else x)
    ({ s with
        live_input_count := s.live_input_count - 1
        ready := setEof s.ready
        unscheduled := setEof s.unscheduled
        others := setEof s.others },
     { input with at_eof := true })

/-- Function `clear_input_queue` (scheduler.cpp lines 2322-2338): drop every
queued record.  Its assertion — only the front entry may be an instruction or
encoding — appears as a hypothesis of the theorems using it. -/
def clear_input_queue (input : InputInfo) : InputInfo :=
  { input with queue := [] }

/-- Function `skip_instructions` (scheduler.cpp lines 2340-2395): initialize
the reader if needed, clear the input queue, ask the reader to skip, reset
`instrs_pre_read`; at end of trace mark the input EOF and return Skipped for
a near-maximum (sentinel-derived) skip amount and RegionInvalid otherwise;
else enter the current region and, for regions past the first, queue a window
separator marker.  Returns (status, scheduler state, updated input). -/
def skip_instructions (s : SchedState) (input : InputInfo) (skip_amount : Nat) :
    StreamStatus × SchedState × InputInfo :=
  let input := if input.needs_init then { input with needs_init := false }
    else input
  let input := clear_input_queue input
  let input :=
    { input with reader := reader_skip_instructions input.reader skip_amount }
  let input := if input.instrs_pre_read > 0 then
      { input with instrs_pre_read := 0 }
    else input
  if reader_at_end input.reader then
    let me := mark_input_eof s input
    if skip_amount ≥ U64MAX - 2 then (.skipped, me.1, me.2)
    else (.regionInvalid, me.1, me.2)
  else
    let input := { input with in_cur_region := true }
    let input := if input.cur_region > 0 then
        { input with
          queue := input.queue ++
            [create_region_separator_marker input.tid input.cur_region] }
      else input
    (.skipped, s, input)

/-- Update the copies of input `idx` held in a container list. -/
def updateByIndex (q : List InputInfo) (idx : Nat) (f : InputInfo → InputInfo) :
    List InputInfo :=
  q.map (fun x => if x.index = idx then f x else x)

/-- Write `target->skip_next_unscheduled = true` (scheduler.cpp line 3060)
through the value representation: the target may be the focal output's
current input or live in any container. -/
def mark_skip_next_unscheduled (out : OutputState) (s : SchedState)
    (idx : Nat) : OutputState × SchedState :=
  let upd : InputInfo → InputInfo :=
    fun x => { x with skip_next_unscheduled := true }
  ({ out with cur_input := out.cur_input.map (fun p =>
        if p.index = idx then upd p else p) },
   { s with
      ready := updateByIndex s.ready idx upd
      unscheduled := updateByIndex s.unscheduled idx upd
      others := updateByIndex s.others idx upd })

/-- Global half of the `TRACE_MARKER_TYPE_SYSCALL_SCHEDULE` handling
(scheduler.cpp lines 3295-3327): under the scheduler lock, if the target is
unscheduled clear the flag and either move it from the unscheduled queue to
the ready queue or, when it sits in the ready queue with a pending blocked
time, erase that blocked time; a target that is not unscheduled gets
`skip_next_unscheduled` set so its next unschedule request is a no-op. -/
def syscall_schedule_resume (s : SchedState) (tgt : Nat) : SchedState :=
  let fromUnsched := findByIndex s.unscheduled tgt
  let fromReady := findByIndex s.ready tgt
  let fromOthers := findByIndex s.others tgt
  match fromUnsched, fromReady, fromOthers with
  | some u, _, _ =>
    if u.unscheduled then
      add_to_ready_queue { s with unscheduled := eraseByIndex s.unscheduled tgt }
        { u with unscheduled := false }
    else
      { s with
        unscheduled := updateByIndex s.unscheduled tgt
          (fun x => { x with skip_next_unscheduled := true }) }
  | none, some u, _ =>
    if u.unscheduled then
      let s := if u.blocked_time > 0 then
          { s with num_blocked := s.num_blocked - 1 }
        else s
      { s with
        ready := updateByIndex s.ready tgt
          (fun x => { x with unscheduled := false, blocked_time := 0 }) }
    else
      { s with
        ready := updateByIndex s.ready tgt
          (fun x => { x with skip_next_unscheduled := true }) }
  | none, none, some u =>
    if u.unscheduled then
      { s with
        others := updateByIndex s.others tgt
          (fun x => { x with unscheduled := false }) }
    else
      { s with
        others := updateByIndex s.others tgt
          (fun x => { x with skip_next_unscheduled := true }) }
  | none, none, none => s

/-- Function `process_marker` (scheduler.cpp lines 3183-3334).  `tid2input`
models the `tid2input_` map as a partial function from (workload, tid) to the
input ordinal.  Returns the updated current input, output, and scheduler
state (the latter only changes for `SyscallSchedule`, whose global half is
[[syscall_schedule_resume]]). -/
def process_marker (o : SchedOptions) (tid2input : Nat → Nat → Option Nat)
    (input : InputInfo) (out : OutputState) (s : SchedState)
    (marker_type : TraceMarkerType) (marker_value : Nat) :
    InputInfo × OutputState × SchedState :=
  match marker_type with
  | .syscall =>
    ({ input with
        processing_syscall := true
        pre_syscall_timestamp := input.reader.last_timestamp }, out, s)
  | .maybeBlockingSyscall =>
    ({ input with
        processing_maybe_blocking_syscall := true
        pre_syscall_timestamp := input.reader.last_timestamp }, out, s)
  | .contextSwitchStart =>
    (input,
     { out with in_context_switch_code := true, in_kernel_code := true }, s)
  | .syscallTraceStart =>
    (input, { out with in_kernel_code := true }, s)
  | .contextSwitchEnd =>
    (input,
     { out with hit_switch_code_end := true, in_kernel_code := false }, s)
  | .syscallTraceEnd =>
    (input, { out with in_kernel_code := false }, s)
  | .directThreadSwitch =>
    if ¬o.honor_direct_switches then (input, out, s)
    else
      let out := { out with stats :=
        { out.stats with
            direct_switch_attempts := out.stats.direct_switch_attempts + 1 } }
      let input := match tid2input input.workload marker_value with
        | some idx => { input with switch_to_input := some idx }
        | none => input
      if input.skip_next_unscheduled then
        ({ input with skip_next_unscheduled := false }, out, s)
      else
        let input := { input with unscheduled := true }
        let input := if input.syscall_timeout_arg > 0 then
            { input with
              blocked_time := scale_blocked_time o input.syscall_timeout_arg
              blocked_start_time := out.cur_time }
          else input
        (input, out, s)
  | .syscallArgTimeout =>
    ({ input with syscall_timeout_arg := marker_value }, out, s)
  | .syscallUnschedule =>
    if ¬o.honor_direct_switches then (input, out, s)
    else if input.skip_next_unscheduled then
      ({ input with skip_next_unscheduled := false }, out, s)
    else
      let input := { input with unscheduled := true }
      let input := if input.syscall_timeout_arg > 0 then
          { input with
            blocked_time := scale_blocked_time o input.syscall_timeout_arg
            blocked_start_time := out.cur_time }
        else input
      (input, out, s)
  | .syscallSchedule =>
    if ¬o.honor_direct_switches then (input, out, s)
    else
      match tid2input input.workload marker_value with
      | none => (input, out, s)
      | some tgt => (input, out, syscall_schedule_resume s tgt)
  | _ => (input, out, s)

/-- Result of processing one candidate record in the `MAP_TO_ANY_OUTPUT`
branch of `next_record`: the updated input/output/scheduler state, the
`need_new_input`, `preempt` and `blocked_time` locals of next_record, and the
`prev_time_in_quantum` local saved for the post-switch time-quantum
adjustment. -/
structure StepResult where
  input : InputInfo
  out : OutputState
  sched : SchedState
  need_new_input : Bool
  preempt : Bool
  blocked_time : Nat
  saved_prev_time : Nat
  deriving DecidableEq

/-- Syscall-completion check of `next_record` (scheduler.cpp lines
3506-3545): at the first instruction boundary after a syscall marker, decide
a switch from a pending direct-switch request, an externally set blocked
time, an unscheduled transition, or the blocking model
[[syscall_incurs_switch]]; then clear the per-syscall state.  Returns the
updated input and the `need_new_input` / `blocked_time` locals. -/
def syscall_completion_phase (o : SchedOptions) (out : OutputState)
    (input : InputInfo) (r : Record) : InputInfo × Bool × Nat :=
  if input.processing_syscall ∨ input.processing_maybe_blocking_syscall then
    if record_type_is_instr_boundary r out.last_record then
      let p :=
        if input.switch_to_input.isSome then (true, 0)
        else if input.blocked_time > 0 then (true, input.blocked_time)
        else if input.unscheduled then (true, 0)
        else syscall_incurs_switch o input
      ({ input with
          processing_syscall := false
          processing_maybe_blocking_syscall := false
          pre_syscall_timestamp := 0
          syscall_timeout_arg := 0 },
       p.1, p.2)
    else (input, false, 0)
  else (input, false, 0)

/-- Deferred context-switch-end handling of `next_record` (scheduler.cpp
lines 3547-3557): one record after the end marker, leave the context-switch
sequence and, for time quanta, restart the quantum clock. -/
def switch_end_phase (o : SchedOptions) (out : OutputState)
    (input : InputInfo) (cur_time : Nat) : OutputState × InputInfo :=
  if out.hit_switch_code_end then
    ({ out with in_context_switch_code := false, hit_switch_code_end := false },
     if o.quantum_unit = QuantumUnit.time then
       { input with prev_time_in_quantum := cur_time }
     else input)
  else (out, input)

/-- Instruction-quantum check of `next_record` (scheduler.cpp lines
3561-3577): count the instruction boundary unless inside kernel code, and
preempt once the counter exceeds `quantum_duration_instrs` (resetting it and
counting a quantum preempt). -/
def instr_quantum_phase (o : SchedOptions) (out : OutputState)
    (input : InputInfo) (r : Record) (need_new_input : Bool) :
    InputInfo × OutputState × Bool × Bool :=
  if record_type_is_instr_boundary r out.last_record ∧ ¬out.in_kernel_code then
    let input := { input with instrs_in_quantum := input.instrs_in_quantum + 1 }
    if input.instrs_in_quantum > o.quantum_duration_instrs then
      ({ input with instrs_in_quantum := 0 },
       { out with stats :=
          { out.stats with quantum_preempts := out.stats.quantum_preempts + 1 } },
       true, true)
    else (input, out, need_new_input, false)
  else (input, out, need_new_input, false)

/-- Time-quantum check of `next_record` (scheduler.cpp lines 3578-3607):
reject an invalid current time (`none`, scheduler returns STATUS_INVALID),
accumulate the elapsed time, and preempt at an instruction boundary once the
elapsed microseconds reach `quantum_duration_us`.  Also returns the saved
`prev_time_in_quantum` local. -/
def time_quantum_phase (o : SchedOptions) (out : OutputState)
    (input : InputInfo) (r : Record) (cur_time : Nat)
    (need_new_input : Bool) :
    Option (InputInfo × OutputState × Bool × Bool × Nat) :=
  if cur_time = 0 ∨ cur_time < input.prev_time_in_quantum then none
  else
    let saved := input.prev_time_in_quantum
    let input := { input with
      time_spent_in_quantum :=
        input.time_spent_in_quantum + (cur_time - input.prev_time_in_quantum)
      prev_time_in_quantum := cur_time }
    let elapsed_micros : ℚ :=
      (input.time_spent_in_quantum : ℚ) / o.time_units_per_us
    if elapsed_micros ≥ o.quantum_duration_us ∧
        record_type_is_instr_boundary r out.last_record then
      some ({ input with time_spent_in_quantum := 0 },
            { out with stats :=
              { out.stats with
                  quantum_preempts := out.stats.quantum_preempts + 1 } },
            true, true, saved)
    else some (input, out, need_new_input, false, saved)

/-- Record-processing step of `next_record` for `MAP_TO_ANY_OUTPUT`
(scheduler.cpp lines 3500-3608): syscall-completion check, deferred
context-switch-end handling, marker processing, then the quantum check for
the configured unit.  `none` models the STATUS_INVALID return of the
time-quantum check. -/
def process_record_to_any (o : SchedOptions)
    (tid2input : Nat → Nat → Option Nat) (out : OutputState)
    (input : InputInfo) (s : SchedState) (r : Record) (cur_time : Nat) :
    Option StepResult :=
  let t1 := syscall_completion_phase o out input r
  let input := t1.1
  let need_new_input := t1.2.1
  let blocked_time := t1.2.2
  let t2 := switch_end_phase o out input cur_time
  let out := t2.1
  let input := t2.2
  let t3 :=
    match record_type_is_marker r with
    | some (mt, mv) => process_marker o tid2input input out s mt mv
    | none => (input, out, s)
  let input := t3.1
  let out := t3.2.1
  let s := t3.2.2
  if o.quantum_unit = QuantumUnit.instructions then
    let t4 := instr_quantum_phase o out input r need_new_input
    some ⟨t4.1, t4.2.1, s, t4.2.2.1, t4.2.2.2, blocked_time, 0⟩
  else
    match time_quantum_phase o out input r cur_time need_new_input with
    | none => none
    | some t4 =>
      some ⟨t4.1, t4.2.1, s, t4.2.2.1, t4.2.2.2.1, blocked_time, t4.2.2.2.2⟩

/-- Post-switch quantum adjustment of `next_record` (scheduler.cpp lines
3646-3660): when the output switched to a different input and the switch was
not a quantum preemption, undo the quantum charge of the queued-back
candidate record on the outgoing input — decrement `instrs_in_quantum` at an
instruction boundary for instruction quanta, or subtract the just-added time
for time quanta. -/
def next_record_switch_adjust (o : SchedOptions) (switched preempt : Bool)
    (r last_record : Record) (prev_input : InputInfo)
    (cur_time saved_prev_time : Nat) : InputInfo :=
  if switched ∧ ¬preempt ∧ o.mapping = MappingMode.toAnyOutput then
    if o.quantum_unit = QuantumUnit.instructions ∧
        record_type_is_instr_boundary r last_record then
      { prev_input with instrs_in_quantum := prev_input.instrs_in_quantum - 1 }
    else if o.quantum_unit = QuantumUnit.time then
      { prev_input with
        time_spent_in_quantum :=
          prev_input.time_spent_in_quantum - (cur_time - saved_prev_time) }
    else prev_input
  else prev_input

/-- Function `set_cur_input` (scheduler.cpp lines 2666-2792), in value form:
demote the previous input (re-add it to the ready queue unless at EOF, close
its recorded segment), install the new input, count a migration, inject the
kernel context-switch sequence, restart the quantum clock, and record the new
Default (or initial-skip) segment.  The stream-metadata caching of lines
2723-2734 touches only reader-query caches and is omitted;
`insert_switch_tid_pid` is a no-op for the memref schema (lines 343-348).
The C++ order re-adds the previous input before closing its segment; the two
commute (closing only touches `switching_pre_instruction` and the record
list), so the close is applied first here to keep value flow simple. -/
def set_cur_input (o : SchedOptions) (outputIdx now : Nat) (out : OutputState)
    (s : SchedState) (newInput : Option InputInfo) : OutputState × SchedState :=
  let prevIdxLocal := out.cur_input.map (·.index)
  let demoted :=
    match out.cur_input with
    | some p =>
      let changing := newInput.map (fun x : InputInfo => x.index) ≠ some p.index
      let cl := if changing ∧ o.schedule_record_enabled then
          close_schedule_segment out.record p now
        else (out.record, p)
      let recs := cl.1
      let p := cl.2
      let s := if o.mapping = MappingMode.toAnyOutput ∧ changing ∧ ¬p.at_eof
        then add_to_ready_queue s p
        else s
      ({ out with
          record := recs
          prev_input_index := some p.index
          prev_input_workload := some p.workload }, s)
    | none =>
      let recs := if o.schedule_record_enabled ∧
          (out.record.getLast?.map (fun x : ScheduleRecord => x.type)) =
            some SegType.idle then
          (close_schedule_segment out.record {} now).1
        else out.record
      ({ out with record := recs }, s)
  let out := demoted.1
  let s := demoted.2
  let out := { out with cur_input := newInput }
  match newInput with
  | none => (out, s)
  | some n =>
    if prevIdxLocal = some n.index then (out, s)
    else
      let out := if n.prev_output ≠ none ∧ n.prev_output ≠ some outputIdx then
          { out with stats :=
            { out.stats with migrations := out.stats.migrations + 1 } }
        else out
      let n := { n with prev_output := some outputIdx }
      let prev_workload : Option Nat :=
        if out.prev_input_index ≠ none ∧ out.prev_input_index ≠ some n.index
        then out.prev_input_workload
        else none
      let n := if s.switch_sequence_loaded ∧ out.stream_instruction_ordinal > 0
        then
          let seq := if prev_workload ≠ some n.workload then
              s.switch_sequence_process
            else s.switch_sequence_thread
          if seq ≠ [] then
            { n with queue := seq.map (record_set_tid n.tid) ++ n.queue }
          else n
        else n
      let n := { n with prev_time_in_quantum := out.cur_time }
      let rec2 := if o.schedule_record_enabled then
          match n.regions_of_interest with
          | (start0, _) :: _ =>
            if n.cur_region = 0 ∧ n.in_cur_region ∧
                (get_instr_ordinal n = start0 ∨
                  get_instr_ordinal n + 1 = start0) then
              record_schedule_skip out.record n 0 start0 now
            else
              (record_schedule_segment out.record .defaultSeg n.index
                (get_instr_ordinal n) 0 now, n)
          | [] =>
            (record_schedule_segment out.record .defaultSeg n.index
              (get_instr_ordinal n) 0 now, n)
        else (out.record, n)
      ({ out with cur_input := some rec2.2, record := rec2.1 }, s)

/-- Function `eof_or_idle` (scheduler.cpp lines 3798-3867): report EOF for
the terminal configurations; otherwise, in `MAP_TO_ANY_OUTPUT`, when the
ready queue is empty but the unscheduled queue is not, start the output's
wait timer on the first visit and, once the scaled elapsed wait exceeds
`block_time_max_us`, flush every unscheduled input (flag cleared) back to the
ready queue; finally go idle, giving up the current input. -/
def eof_or_idle (o : SchedOptions) (outputIdx now : Nat) (out : OutputState)
    (s : SchedState) (prev_input : Option Nat) :
    StreamStatus × OutputState × SchedState :=
  if o.mapping = MappingMode.toConsistentOutput ∨ s.live_input_count = 0 ∨
      (o.mapping = MappingMode.asPreviously ∧
        s.live_replay_output_count = 0) then
    (.eof, out, s)
  else
    let flushed :=
      if o.mapping = MappingMode.toAnyOutput then
        if s.ready = [] ∧ s.unscheduled ≠ [] then
          if out.wait_start_time = 0 then
            ({ out with wait_start_time := out.cur_time }, s)
          else
            let elapsed_micros : ℚ :=
              (u64sub out.cur_time out.wait_start_time : ℚ) *
                o.time_units_per_us
            if elapsed_micros > (o.block_time_max_us : ℚ) then
              ({ out with wait_start_time := 0 },
               { s with
                  ready := s.unscheduled.foldl
                    (fun q x => rqPush q { x with unscheduled := false })
                    s.ready
                  unscheduled := [] })
            else (out, s)
        else ({ out with wait_start_time := 0 }, s)
      else (out, s)
    let out := flushed.1
    let s := flushed.2
    let out := { out with waiting := true }
    let out := if prev_input.isSome then
        { out with stats :=
          { out.stats with
              switch_input_to_idle := out.stats.switch_input_to_idle + 1 } }
      else out
    let sc := set_cur_input o outputIdx now out s none
    (.idle, sc.1, sc.2)

/-- Lookup of `inputs_[idx]` in value form: the input is the output's current
input or sits in one of the containers. -/
def lookup_input (out : OutputState) (s : SchedState) (idx : Nat) :
    Option InputInfo :=
  match out.cur_input with
  | some p =>
    if p.index = idx then some p
    else findByIndex s.ready idx <|> findByIndex s.unscheduled idx <|>
      findByIndex s.others idx
  | none =>
    findByIndex s.ready idx <|> findByIndex s.unscheduled idx <|>
      findByIndex s.others idx

/-- Result of `pick_next_input`: status, updated output and scheduler state,
and whether a direct-switch miss was logged (the VPRINT of scheduler.cpp
lines 3052-3056). -/
structure PickResult where
  status : StreamStatus
  out : OutputState
  sched : SchedState
  miss_logged : Bool
  deriving DecidableEq

/-- Post-selection tail of `pick_next_input` (scheduler.cpp lines 3169-3180)
for a valid chosen input: account the switch statistic and install the input
through [[set_cur_input]]. -/
def pick_finish (o : SchedOptions) (outputIdx now : Nat)
    (prev_index : Option Nat) (chosen : InputInfo) (out : OutputState)
    (s : SchedState) (miss : Bool) : PickResult :=
  let out := if prev_index = some chosen.index then
      { out with stats :=
        { out.stats with switch_nop := out.stats.switch_nop + 1 } }
    else if prev_index.isSome then
      { out with stats :=
        { out.stats with
            switch_input_to_input := out.stats.switch_input_to_input + 1 } }
    else
      { out with stats :=
        { out.stats with
            switch_idle_to_input := out.stats.switch_idle_to_input + 1 } }
  let sc := set_cur_input o outputIdx now out s (some chosen)
  ⟨.ok, sc.1, sc.2, miss⟩

/-- Selection loop of `pick_next_input` for `MAP_TO_ANY_OUTPUT`
(scheduler.cpp lines 2954-3180 without the direct-switch head): with no
candidate, either return to the previous input (empty ready queue, no blocked
time) or give up the current input and pop from the ready queue; a candidate
is initialized if needed and, when at EOF, marked so and the loop retried.
The structural `fuel` argument bounds the loop (each retry consumes a popped
input); exhaustion, which no real run reaches, reports Invalid. -/
def pick_loop (o : SchedOptions) (outputIdx now blocked_time : Nat)
    (prev_index : Option Nat) (miss : Bool) :
    Nat → Option InputInfo → OutputState → SchedState → PickResult
  | 0, _, out, s => ⟨.invalid, out, s, miss⟩
  | Nat.succ fuel, some chosen, out, s =>
    let chosen := if chosen.needs_init then { chosen with needs_init := false }
      else chosen
    if chosen.at_eof ∨ reader_at_end chosen.reader then
      pick_loop o outputIdx now blocked_time prev_index miss fuel none out
        (mark_input_eof s chosen).1
    else pick_finish o outputIdx now prev_index chosen out s miss
  | Nat.succ fuel, none, out, s =>
    if s.ready = [] ∧ blocked_time = 0 then
      match prev_index with
      | none =>
        let ei := eof_or_idle o outputIdx now out s none
        ⟨ei.1, ei.2.1, ei.2.2, miss⟩
      | some pidx =>
        match lookup_input out s pidx with
        | none =>
          let ei := eof_or_idle o outputIdx now out s prev_index
          ⟨ei.1, ei.2.1, ei.2.2, miss⟩
        | some p =>
          if p.at_eof then
            let ei := eof_or_idle o outputIdx now out s prev_index
            ⟨ei.1, ei.2.1, ei.2.2, miss⟩
          else
            pick_loop o outputIdx now blocked_time prev_index miss fuel
              (some p) out s
    else
      let sc := set_cur_input o outputIdx now out s none
      let out := sc.1
      let pp := pop_from_ready_queue outputIdx out.cur_time sc.2
      let popped := pp.1
      let status := pp.2.1
      let s := pp.2.2
      if status ≠ StreamStatus.ok then
        let out := if status = StreamStatus.idle then
            let out := { out with waiting := true }
            let out := if o.schedule_record_enabled then
                { out with
                  record := record_schedule_segment out.record .idle 0 0 0 now }
              else out
            if prev_index.isSome then
              { out with stats :=
                { out.stats with
                    switch_input_to_idle :=
                      out.stats.switch_input_to_idle + 1 } }
            else out
          else out
        ⟨status, out, s, miss⟩
      else
        match popped with
        | none =>
          let ei := eof_or_idle o outputIdx now out s prev_index
          ⟨ei.1, ei.2.1, ei.2.2, miss⟩
        | some q =>
          pick_loop o outputIdx now blocked_time prev_index miss fuel
            (some q) out s

/-- Function `pick_next_input` for `MAP_TO_ANY_OUTPUT` (scheduler.cpp lines
2943-3181): stamp a supplied blocked time on the outgoing input, consume a
pending direct-switch request — taking the target from the ready or
unscheduled queue when present, otherwise logging a miss and setting the
target's `skip_next_unscheduled` — then run the selection loop. -/
def pick_next_input_to_any (o : SchedOptions) (outputIdx now blocked_time : Nat)
    (out : OutputState) (s : SchedState) : PickResult :=
  let prev_index := out.cur_input.map (·.index)
  let out := match out.cur_input with
    | some p =>
      if blocked_time > 0 ∧ p.blocked_time = 0 then
        let p := { p with
          blocked_time := blocked_time
          blocked_start_time := out.cur_time }
        { out with cur_input := some p }
      else out
    | none => out
  let phase :=
    match out.cur_input with
    | some p =>
      match p.switch_to_input with
      | some tgt =>
        let p := { p with switch_to_input := none }
        let out := { out with cur_input := some p }
        match findByIndex s.ready tgt with
        | some target =>
          let s := { s with ready := eraseByIndex s.ready tgt }
          let ts := if target.blocked_time > 0 then
              ({ target with blocked_time := 0, unscheduled := false },
               { s with num_blocked := s.num_blocked - 1 })
            else (target, s)
          let target := ts.1
          let s := ts.2
          let out := if target.prev_output ≠ none ∧
              target.prev_output ≠ some outputIdx then
              { out with stats :=
                { out.stats with migrations := out.stats.migrations + 1 } }
            else out
          let out := { out with stats :=
            { out.stats with
                direct_switch_successes :=
                  out.stats.direct_switch_successes + 1 } }
          (some target, out, s, false)
        | none =>
          match findByIndex s.unscheduled tgt with
          | some target =>
            let target := { target with unscheduled := false }
            let s := { s with unscheduled := eraseByIndex s.unscheduled tgt }
            let out := if target.prev_output ≠ none ∧
                target.prev_output ≠ some outputIdx then
                { out with stats :=
                  { out.stats with migrations := out.stats.migrations + 1 } }
              else out
            let out := { out with stats :=
              { out.stats with
                  direct_switch_successes :=
                    out.stats.direct_switch_successes + 1 } }
            (some target, out, s, false)
          | none =>
            let ms := mark_skip_next_unscheduled out s tgt
            (none, ms.1, ms.2, true)
      | none => (none, out, s, false)
    | none => (none, out, s, false)
  let chosen := phase.1
  let out := phase.2.1
  let s := phase.2.2.1
  let miss := phase.2.2.2
  pick_loop o outputIdx now blocked_time prev_index miss
    (s.ready.length + s.unscheduled.length + 3) chosen out s

/-! ### Theorems for the claims -/

/-- Sample options with the default values; used by witnesses. -/
def sampleOptions : SchedOptions := {}

/-- Sample input sitting in a maybe-blocking syscall with bracketing
timestamps (modern trace version); used by witnesses. -/
def syscallInput : InputInfo :=
  { processing_maybe_blocking_syscall := true
    pre_syscall_timestamp := 50
    reader := { last_timestamp := 150, version := 6, num_instrs := 10 } }

/-- C1: at the end of a syscall, `syscall_incurs_switch` decides a switch as
specified: for traces older than the frequent-timestamp version it returns
true iff the syscall was maybe-blocking and reports
`blocked_time = blocking_switch_threshold`; for modern traces it computes the
latency as post-timestamp minus pre-syscall timestamp, picks the
blocking/plain switch threshold according to maybe-blocking, reports
`blocked_time = scale_blocked_time latency`, and returns true iff the latency
reaches the threshold.  The hypotheses mirror the function's assertions
(a syscall is being processed; for modern traces the pre-syscall timestamp is
positive and at most the post timestamp, a `uint64_t`). -/
theorem C1_syscall_incurs_switch (o : SchedOptions) (input : InputInfo)
    (hsys : input.processing_syscall = true ∨
      input.processing_maybe_blocking_syscall = true) :
    (input.reader.version < TRACE_ENTRY_VERSION_FREQUENT_TIMESTAMPS →
      ((syscall_incurs_switch o input).1 =
          input.processing_maybe_blocking_syscall ∧
        (syscall_incurs_switch o input).2 = o.blocking_switch_threshold)) ∧
    (TRACE_ENTRY_VERSION_FREQUENT_TIMESTAMPS ≤ input.reader.version →
      0 < input.pre_syscall_timestamp →
      input.pre_syscall_timestamp ≤ input.reader.last_timestamp →
      input.reader.last_timestamp < 2 ^ 64 →
      (((syscall_incurs_switch o input).1 = true ↔
          (if input.processing_maybe_blocking_syscall then
            o.blocking_switch_threshold
          else o.syscall_switch_threshold) ≤
            input.reader.last_timestamp - input.pre_syscall_timestamp) ∧
        (syscall_incurs_switch o input).2 =
          scale_blocked_time o
            (input.reader.last_timestamp - input.pre_syscall_timestamp))) := by
  constructor
  · intro hv
    simp only [syscall_incurs_switch, if_pos hv]
    exact ⟨trivial, trivial⟩
  · intro hv _hpos hle hlt
    have hv' : ¬input.reader.version <
        TRACE_ENTRY_VERSION_FREQUENT_TIMESTAMPS := by omega
    simp only [syscall_incurs_switch, if_neg hv', u64sub_eq_sub hle hlt]
    exact ⟨by simp [ge_iff_le], trivial⟩

/-- Witness for C1: a concrete modern-trace maybe-blocking syscall with
latency 100 against the default thresholds. -/
theorem C1_witness :
    ((syscall_incurs_switch sampleOptions syscallInput).1 = true ↔
      (if syscallInput.processing_maybe_blocking_syscall then
        sampleOptions.blocking_switch_threshold
      else sampleOptions.syscall_switch_threshold) ≤
        syscallInput.reader.last_timestamp -
          syscallInput.pre_syscall_timestamp) ∧
    (syscall_incurs_switch sampleOptions syscallInput).2 =
      scale_blocked_time sampleOptions
        (syscallInput.reader.last_timestamp -
          syscallInput.pre_syscall_timestamp) :=
  (C1_syscall_incurs_switch sampleOptions syscallInput (Or.inr (by decide))).2
    (by decide) (by decide) (by decide) (by decide)

/-- C2 counterexample: with `block_time_multiplier = 1/2`,
`time_units_per_us = 2` and `block_time_max_us = 10`, the code's
`scale_blocked_time 3` yields 2 while the spec formula
`clamp(x·multiplier, 0, max)·units` yields 3 (an integer, so the mismatch is
not a rounding of the spec value): the claim's equation fails on the code. -/
theorem C2_counterexample :
    scale_blocked_time
        { block_time_multiplier := 1/2, time_units_per_us := 2,
          block_time_max_us := 10 } 3 = 2 ∧
      spec_scale
        { block_time_multiplier := 1/2, time_units_per_us := 2,
          block_time_max_us := 10 } 3 = 3 ∧
      scale_blocked_time
          { block_time_multiplier := 1/2, time_units_per_us := 2,
            block_time_max_us := 10 } 3 ≠
        spec_scale
          { block_time_multiplier := 1/2, time_units_per_us := 2,
            block_time_max_us := 10 } 3 := by
  refine ⟨?_, ?_, ?_⟩ <;>
    · norm_num [scale_blocked_time, spec_scale]
      decide

/-- C2 (amended): `scale_blocked_time x` equals `x` multiplied by
`block_time_multiplier` and truncated to an integer count, clamped above by
`block_time_max_us`, then multiplied by `time_units_per_us` and truncated
again; in particular, for non-negative multiplier and unit scale, the
resulting blocked time never exceeds
`block_time_max_us · time_units_per_us`. -/
theorem C2_scale_blocked_time (o : SchedOptions) (x : Nat)
    (hm : 0 ≤ o.block_time_multiplier) (hu : 0 ≤ o.time_units_per_us) :
    scale_blocked_time o x =
      (⌊((min (⌊(x : ℚ) * o.block_time_multiplier⌋).toNat
            o.block_time_max_us : Nat) : ℚ) * o.time_units_per_us⌋).toNat ∧
    (scale_blocked_time o x : ℚ) ≤
      (o.block_time_max_us : ℚ) * o.time_units_per_us := by
  have hmin : scale_blocked_time o x =
      (⌊((min (⌊(x : ℚ) * o.block_time_multiplier⌋).toNat
            o.block_time_max_us : Nat) : ℚ) * o.time_units_per_us⌋).toNat := by
    simp only [scale_blocked_time]
    have : (if (⌊(x : ℚ) * o.block_time_multiplier⌋).toNat >
          o.block_time_max_us then o.block_time_max_us
        else (⌊(x : ℚ) * o.block_time_multiplier⌋).toNat) =
        min (⌊(x : ℚ) * o.block_time_multiplier⌋).toNat o.block_time_max_us := by
      split <;> omega
    rw [this]
  refine ⟨hmin, ?_⟩
  rw [hmin]
  set c : Nat :=
    min (⌊(x : ℚ) * o.block_time_multiplier⌋).toNat o.block_time_max_us with hc
  have hcle : (c : ℚ) ≤ (o.block_time_max_us : ℚ) := by
    exact_mod_cast Nat.min_le_right _ _
  have hv0 : (0 : ℚ) ≤ (c : ℚ) * o.time_units_per_us :=
    mul_nonneg (by positivity) hu
  have hfl : (0 : ℤ) ≤ ⌊(c : ℚ) * o.time_units_per_us⌋ := Int.floor_nonneg.mpr hv0
  have hcast : (((⌊(c : ℚ) * o.time_units_per_us⌋).toNat : Nat) : ℚ) =
      ((⌊(c : ℚ) * o.time_units_per_us⌋ : ℤ) : ℚ) := by
    exact_mod_cast congrArg (fun z : ℤ => (z : ℚ)) (Int.toNat_of_nonneg hfl)
  calc (((⌊(c : ℚ) * o.time_units_per_us⌋).toNat : Nat) : ℚ)
      = ((⌊(c : ℚ) * o.time_units_per_us⌋ : ℤ) : ℚ) := hcast
    _ ≤ (c : ℚ) * o.time_units_per_us := Int.floor_le _
    _ ≤ (o.block_time_max_us : ℚ) * o.time_units_per_us :=
        mul_le_mul_of_nonneg_right hcle hu

/-- Witness for C2: the default options (multiplier 1, 100 units per
micro-second) at latency 3. -/
theorem C2_witness :
    (0 ≤ sampleOptions.block_time_multiplier ∧
      0 ≤ sampleOptions.time_units_per_us) ∧
    ((scale_blocked_time sampleOptions 3 : ℚ) ≤
      (sampleOptions.block_time_max_us : ℚ) * sampleOptions.time_units_per_us) :=
  ⟨⟨by norm_num [sampleOptions], by norm_num [sampleOptions]⟩,
    (C2_scale_blocked_time sampleOptions 3 (by norm_num [sampleOptions])
      (by norm_num [sampleOptions])).2⟩

/-- Characterisation of the replay-file checker loop: it returns the empty
(no-error) string exactly when the remaining records have no two consecutive
Idle entries and, if the previous record was Idle, the next record is not. -/
theorem replay_check_loop_empty_iff :
    ∀ (l : List ScheduleRecord) (prev : Bool),
      replay_check_loop prev l = "" ↔
        (noConsecIdle l ∧ (prev = true →
          (l.head?.map (fun x : ScheduleRecord => x.type)) ≠
            some SegType.idle))
  | [], prev => by
    simp [replay_check_loop, noConsecIdle]
  | r :: rest, prev => by
    have ih := replay_check_loop_empty_iff rest
    by_cases hr : r.type = SegType.idle
    · cases prev with
      | true =>
        have hknown : replay_check_loop true (r :: rest) =
            "Error: consecutive idle records" := by
          simp [replay_check_loop, hr]
        rw [hknown]
        constructor
        · intro h
          exact absurd h (by decide)
        · rintro ⟨-, hhead⟩
          exact absurd (by simp [hr]) (hhead rfl)
      | false =>
        have hstep : replay_check_loop false (r :: rest) =
            replay_check_loop true rest := by
          simp [replay_check_loop, hr]
        rw [hstep, ih true]
        unfold noConsecIdle
        rw [List.chain'_cons']
        constructor
        · rintro ⟨hchain, hhead⟩
          refine ⟨⟨?_, hchain⟩, by simp⟩
          intro b hb
          rintro ⟨-, hbidle⟩
          exact (hhead rfl) (by simp [Option.mem_def.mp hb, hbidle])
        · rintro ⟨⟨hhead, hchain⟩, -⟩
          refine ⟨hchain, fun _ => ?_⟩
          intro hmap
          rcases Option.map_eq_some'.mp hmap with ⟨b, hb, hbt⟩
          exact hhead b (Option.mem_def.mpr hb) ⟨hr, hbt⟩
    · have hstep : replay_check_loop prev (r :: rest) =
          replay_check_loop false rest := by
        simp [replay_check_loop, hr]
      rw [hstep, ih false]
      unfold noConsecIdle
      rw [List.chain'_cons']
      constructor
      · rintro ⟨hchain, -⟩
        refine ⟨⟨?_, hchain⟩, fun _ => ?_⟩
        · intro b _
          rintro ⟨hridle, -⟩
          exact hr hridle
        · intro hmap
          simp at hmap
          exact hr hmap
      · rintro ⟨⟨-, hchain⟩, -⟩
        exact ⟨hchain, by simp⟩

/-- C5: no recorded per-output schedule log ever contains two consecutive
Idle segments: `record_schedule_segment` drops an Idle request whenever the
most recently recorded segment is already Idle, every append through it
preserves the no-consecutive-Idle invariant, and the replay-file checker
accepts a schedule file exactly when it contains no two consecutive Idle
records. -/
theorem C5_no_consecutive_idle :
    (∀ (recs : List ScheduleRecord) (input start stop now : Nat),
      (recs.getLast?.map (fun x : ScheduleRecord => x.type)) =
          some SegType.idle →
        record_schedule_segment recs SegType.idle input start stop now =
          recs) ∧
    (∀ (recs : List ScheduleRecord) (type : SegType)
        (input start stop now : Nat),
      noConsecIdle recs →
        noConsecIdle (record_schedule_segment recs type input start stop now)) ∧
    (∀ recs : List ScheduleRecord,
      replay_file_check recs = "" ↔ noConsecIdle recs) := by
  refine ⟨?_, ?_, ?_⟩
  · intro recs input start stop now h
    unfold record_schedule_segment
    rw [if_pos ⟨rfl, h⟩]
  · intro recs type input start stop now h
    unfold record_schedule_segment
    split
    · exact h
    · rename_i hneg
      unfold noConsecIdle
      rw [List.chain'_append]
      refine ⟨h, by simp, ?_⟩
      intro a ha b hb
      simp only [List.head?_cons, Option.mem_def, Option.some.injEq] at hb
      rintro ⟨haidle, hbidle⟩
      subst hb
      exact hneg ⟨hbidle, by simp [Option.mem_def.mp ha, haidle]⟩
  · intro recs
    have h := replay_check_loop_empty_iff recs false
    simpa [replay_file_check] using h

/-- Witness for C5: a concrete log ending in an Idle segment absorbs a new
Idle request, and the checker accepts it. -/
theorem C5_witness :
    record_schedule_segment
        [⟨SegType.version, 0, 0, 0, 0⟩, ⟨SegType.idle, 0, 0, 0, 5⟩]
        SegType.idle 0 0 0 9 =
      [⟨SegType.version, 0, 0, 0, 0⟩, ⟨SegType.idle, 0, 0, 0, 5⟩] ∧
    (replay_file_check
        [⟨SegType.version, 0, 0, 0, 0⟩, ⟨SegType.idle, 0, 0, 0, 5⟩] = "" ↔
      noConsecIdle
        [⟨SegType.version, 0, 0, 0, 0⟩, ⟨SegType.idle, 0, 0, 0, 5⟩]) :=
  ⟨C5_no_consecutive_idle.1
      [⟨SegType.version, 0, 0, 0, 0⟩, ⟨SegType.idle, 0, 0, 0, 5⟩] 0 0 0 9
      (by decide),
    C5_no_consecutive_idle.2.2
      [⟨SegType.version, 0, 0, 0, 0⟩, ⟨SegType.idle, 0, 0, 0, 5⟩]⟩

/-- C8 counterexample: a bounded skip request of `2^64 - 3` instructions —
which is not the sentinel maximum `2^64 - 1` — that reaches the end of the
trace returns Skipped, not RegionInvalid as the claim requires for bounded
requests: the code's test (scheduler.cpp line 2369) accepts any amount within
2 of the maximum. -/
theorem C8_counterexample :
    (skip_instructions {} { reader := { num_instrs := 5 } } (U64MAX - 2)).1 =
        StreamStatus.skipped ∧
      U64MAX - 2 < U64MAX ∧
      (skip_instructions {} { reader := { num_instrs := 5 } }
          (U64MAX - 2)).1 ≠ StreamStatus.regionInvalid := by
  refine ⟨?_, ?_, ?_⟩ <;> decide

/-- C8 (amended): `skip_instructions` clears the input's record queue (under
the code's assertion that no instruction or encoding sits past the front of
the queue), asks the reader to skip the requested count, resets
`instrs_pre_read` to 0, and when the reader reaches end-of-trace during the
skip marks the input EOF and returns Skipped when the request is within two
of the `uint64_t` sentinel maximum (amount ≥ 2^64 − 3, covering the
sentinel-derived amounts used internally) and RegionInvalid for any smaller
request. -/
theorem C8_skip_instructions (s : SchedState) (input : InputInfo) (n : Nat)
    (hqueue : ∀ r ∈ input.queue.drop 1,
      record_type_is_instr r = false ∧ record_type_is_encoding r = false)
    (heof : reader_at_end (reader_skip_instructions input.reader n) = true) :
    (skip_instructions s input n).1 =
      (if n ≥ U64MAX - 2 then StreamStatus.skipped
        else StreamStatus.regionInvalid) ∧
    (skip_instructions s input n).2.2.queue = [] ∧
    (skip_instructions s input n).2.2.instrs_pre_read = 0 ∧
    (skip_instructions s input n).2.2.at_eof = true := by
  unfold skip_instructions
  simp only [clear_input_queue]
  split_ifs with h1 h2 h3 h4 <;>
    simp_all [mark_input_eof] <;>
    split_ifs <;>
    simp_all

/-- Sample input for the C8 witness: one queued marker past-the-front-free
queue, a pre-read instruction, and a two-instruction trace. -/
def skipInput : InputInfo :=
  { queue := [Record.marker 1 TraceMarkerType.timestampMarker 10]
    instrs_pre_read := 1
    reader := { num_instrs := 2 } }

/-- Witness for C8: a bounded five-instruction skip on a two-instruction
trace reaches EOF and reports RegionInvalid with the queue cleared,
`instrs_pre_read` zeroed and the input at EOF. -/
theorem C8_witness :
    (skip_instructions {} skipInput 5).1 = StreamStatus.regionInvalid ∧
    (skip_instructions {} skipInput 5).2.2.queue = [] ∧
    (skip_instructions {} skipInput 5).2.2.instrs_pre_read = 0 ∧
    (skip_instructions {} skipInput 5).2.2.at_eof = true := by
  have h := C8_skip_instructions {} skipInput 5 (by simp [skipInput])
    (by decide)
  refine ⟨?_, h.2.1, h.2.2.1, h.2.2.2⟩
  rw [h.1]
  decide

/-- Instruction boundaries in the memref schema depend only on the record
itself. -/
theorem record_type_is_instr_boundary_eq (r prev : Record) :
    record_type_is_instr_boundary r prev = record_type_is_instr r := rfl

/-- The syscall-completion check never touches the quantum counters. -/
theorem syscall_completion_preserves (o : SchedOptions) (out : OutputState)
    (input : InputInfo) (r : Record) :
    (syscall_completion_phase o out input r).1.instrs_in_quantum =
        input.instrs_in_quantum ∧
      (syscall_completion_phase o out input r).1.prev_time_in_quantum =
        input.prev_time_in_quantum ∧
      (syscall_completion_phase o out input r).1.time_spent_in_quantum =
        input.time_spent_in_quantum := by
  unfold syscall_completion_phase
  split_ifs <;> simp

/-- The deferred context-switch-end handling touches neither the kernel-code
flag, the statistics and last record of the output, nor the quantum
counters. -/
theorem switch_end_preserves (o : SchedOptions) (out : OutputState)
    (input : InputInfo) (cur_time : Nat) :
    (switch_end_phase o out input cur_time).1.in_kernel_code =
        out.in_kernel_code ∧
      (switch_end_phase o out input cur_time).1.stats = out.stats ∧
      (switch_end_phase o out input cur_time).1.last_record =
        out.last_record ∧
      (switch_end_phase o out input cur_time).2.instrs_in_quantum =
        input.instrs_in_quantum ∧
      (switch_end_phase o out input cur_time).2.time_spent_in_quantum =
        input.time_spent_in_quantum := by
  unfold switch_end_phase
  split_ifs <;> simp

/-- Marker processing never touches the quantum counters of the current input
nor the quantum-preempt statistic of the output. -/
theorem process_marker_preserves (o : SchedOptions)
    (t2i : Nat → Nat → Option Nat) (input : InputInfo) (out : OutputState)
    (s : SchedState) (mt : TraceMarkerType) (mv : Nat) :
    (process_marker o t2i input out s mt mv).1.instrs_in_quantum =
        input.instrs_in_quantum ∧
      (process_marker o t2i input out s mt mv).1.prev_time_in_quantum =
        input.prev_time_in_quantum ∧
      (process_marker o t2i input out s mt mv).1.time_spent_in_quantum =
        input.time_spent_in_quantum ∧
      (process_marker o t2i input out s mt mv).2.1.stats.quantum_preempts =
        out.stats.quantum_preempts := by
  cases mt <;>
    simp only [process_marker] <;>
    (try split) <;>
    (try cases t2i input.workload mv) <;>
    (try split_ifs) <;>
    simp

/-- The time-quantum check rejects a zero or regressed current time. -/
theorem time_quantum_phase_none (o : SchedOptions) (out : OutputState)
    (input : InputInfo) (r : Record) (cur_time : Nat) (nni : Bool)
    (h : cur_time = 0 ∨ cur_time < input.prev_time_in_quantum) :
    time_quantum_phase o out input r cur_time nni = none := by
  unfold time_quantum_phase
  rw [if_pos h]

/-- C9: in `MAP_TO_ANY_OUTPUT` with `quantum_unit = Time`, the
record-processing step of `next_record` fails (and `next_record` then
returns Invalid without delivering the record, scheduler.cpp lines
3578-3588) whenever the caller-supplied `cur_time` is positive but smaller
than the current input's `prev_time_in_quantum` — a failure mode the spec
does not mention.  The hypothesis on `hit_switch_code_end` excludes the one
path that restarts the quantum clock before the check. -/
theorem C9_time_quantum_invalid (o : SchedOptions)
    (t2i : Nat → Nat → Option Nat) (out : OutputState) (input : InputInfo)
    (s : SchedState) (r : Record) (cur_time : Nat)
    (hq : o.quantum_unit = QuantumUnit.time)
    (hh : out.hit_switch_code_end = false)
    (h0 : 0 < cur_time)
    (hlt : cur_time < input.prev_time_in_quantum) :
    process_record_to_any o t2i out input s r cur_time = none := by
  have hq' : ¬(o.quantum_unit = QuantumUnit.instructions) := by
    rw [hq]; intro hcon; cases hcon
  have e1 : (syscall_completion_phase o out input r).1.prev_time_in_quantum =
      input.prev_time_in_quantum :=
    (syscall_completion_preserves o out input r).2.1
  have e2 : (switch_end_phase o out (syscall_completion_phase o out input r).1
      cur_time).2 = (syscall_completion_phase o out input r).1 := by
    unfold switch_end_phase
    simp [hh]
  have e2o : (switch_end_phase o out
      (syscall_completion_phase o out input r).1 cur_time).1 = out := by
    unfold switch_end_phase
    simp [hh]
  cases hm : record_type_is_marker r with
  | none =>
    simp only [process_record_to_any, hm, if_neg hq']
    rw [time_quantum_phase_none _ _ _ _ _ _ (Or.inr (by rw [e2, e1]; exact hlt))]
  | some p =>
    obtain ⟨mt, mv⟩ := p
    simp only [process_record_to_any, hm, if_neg hq']
    rw [time_quantum_phase_none _ _ _ _ _ _ (Or.inr ?_)]
    rw [(process_marker_preserves o t2i _ _ s mt mv).2.1, e2, e1]
    exact hlt

/-- Witness for C9: a concrete instruction record processed at time 5 when
the input's quantum clock last advanced at time 10. -/
theorem C9_witness :
    process_record_to_any { quantum_unit := QuantumUnit.time }
        (fun _ _ => none) {} { prev_time_in_quantum := 10 } {}
        (Record.instr 1 0 4) 5 = none :=
  C9_time_quantum_invalid { quantum_unit := QuantumUnit.time }
    (fun _ _ => none) {} { prev_time_in_quantum := 10 } {}
    (Record.instr 1 0 4) 5 rfl rfl (by decide) (by decide)

/-- Characterisation of the instruction-quantum check: at a countable
instruction boundary outside kernel code, the counter is incremented (and
reset on overflow, with a preempt, a forced new input and one quantum-preempt
statistic); otherwise nothing changes and no preempt is raised. -/
theorem instr_quantum_phase_spec (o : SchedOptions) (out : OutputState)
    (input : InputInfo) (r : Record) (nni : Bool) :
    (record_type_is_instr_boundary r out.last_record = true →
      out.in_kernel_code = false →
      ((instr_quantum_phase o out input r nni).1.instrs_in_quantum =
          (if input.instrs_in_quantum + 1 > o.quantum_duration_instrs then 0
            else input.instrs_in_quantum + 1) ∧
        ((instr_quantum_phase o out input r nni).2.2.2 = true ↔
          input.instrs_in_quantum + 1 > o.quantum_duration_instrs) ∧
        ((instr_quantum_phase o out input r nni).2.2.2 = true →
          (instr_quantum_phase o out input r nni).2.2.1 = true) ∧
        (instr_quantum_phase o out input r nni).2.1.stats.quantum_preempts =
          out.stats.quantum_preempts +
            (if input.instrs_in_quantum + 1 > o.quantum_duration_instrs
              then 1 else 0))) ∧
    (¬(record_type_is_instr_boundary r out.last_record = true ∧
        out.in_kernel_code = false) →
      ((instr_quantum_phase o out input r nni).1.instrs_in_quantum =
          input.instrs_in_quantum ∧
        (instr_quantum_phase o out input r nni).2.2.2 = false ∧
        (instr_quantum_phase o out input r nni).2.2.1 = nni ∧
        (instr_quantum_phase o out input r nni).2.1.stats.quantum_preempts =
          out.stats.quantum_preempts)) := by
  constructor
  · intro hb hk
    unfold instr_quantum_phase
    rw [if_pos ⟨by simp [hb], by simp [hk]⟩]
    by_cases hover : input.instrs_in_quantum + 1 > o.quantum_duration_instrs
    · simp [hover]
    · simp [hover]
  · intro hneg
    unfold instr_quantum_phase
    rw [if_neg ?_]
    · exact ⟨rfl, rfl, rfl, rfl⟩
    · intro hcon
      apply hneg
      constructor
      · have := hcon.1
        simpa using this
      · have := hcon.2
        simpa using this

/-- C3: in `MAP_TO_ANY_OUTPUT` with `quantum_unit = Instructions`, processing
one candidate record (a) increments the current input's `instrs_in_quantum`
exactly at instruction boundaries outside kernel/context-switch code — under
the maintained invariant that context-switch code is kernel code, the code's
kernel-code test coincides with the claim's "kernel or context-switch"
condition (first conjunct) — (b) preempts exactly when the counter exceeds
`quantum_duration_instrs`, resetting the counter, forcing a new input and
counting one quantum preempt, and otherwise leaves the counter and statistic
alone with no preempt, and (c) when a switch to a different input then
actually occurs without a preempt, the post-switch adjustment decrements the
outgoing input's just-incremented counter. -/
theorem C3_instr_quantum (o : SchedOptions) (t2i : Nat → Nat → Option Nat)
    (out : OutputState) (input : InputInfo) (s : SchedState) (r : Record)
    (cur_time : Nat) (st : StepResult)
    (hq : o.quantum_unit = QuantumUnit.instructions)
    (hinv : out.in_context_switch_code = true → out.in_kernel_code = true)
    (hstep : process_record_to_any o t2i out input s r cur_time = some st) :
    ((record_type_is_instr_boundary r out.last_record = true ∧
        out.in_kernel_code = false) ↔
      (record_type_is_instr_boundary r out.last_record = true ∧
        out.in_kernel_code = false ∧ out.in_context_switch_code = false)) ∧
    (record_type_is_instr_boundary r out.last_record = true →
      out.in_kernel_code = false →
      (st.input.instrs_in_quantum =
          (if input.instrs_in_quantum + 1 > o.quantum_duration_instrs then 0
            else input.instrs_in_quantum + 1) ∧
        (st.preempt = true ↔
          input.instrs_in_quantum + 1 > o.quantum_duration_instrs) ∧
        (st.preempt = true → st.need_new_input = true) ∧
        st.out.stats.quantum_preempts = out.stats.quantum_preempts +
          (if input.instrs_in_quantum + 1 > o.quantum_duration_instrs then 1
            else 0))) ∧
    (¬(record_type_is_instr_boundary r out.last_record = true ∧
        out.in_kernel_code = false) →
      (st.input.instrs_in_quantum = input.instrs_in_quantum ∧
        st.preempt = false ∧
        st.out.stats.quantum_preempts = out.stats.quantum_preempts)) ∧
    (∀ (prev_input : InputInfo) (last : Record),
      record_type_is_instr_boundary r last = true →
      st.preempt = false → o.mapping = MappingMode.toAnyOutput →
      (next_record_switch_adjust o true st.preempt r last prev_input cur_time
          st.saved_prev_time).instrs_in_quantum =
        prev_input.instrs_in_quantum - 1) := by
  have hadj : ∀ (prev_input : InputInfo) (last : Record),
      record_type_is_instr_boundary r last = true →
      st.preempt = false → o.mapping = MappingMode.toAnyOutput →
      (next_record_switch_adjust o true st.preempt r last prev_input cur_time
          st.saved_prev_time).instrs_in_quantum =
        prev_input.instrs_in_quantum - 1 := by
    intro prev_input last hblast hpre hmap
    unfold next_record_switch_adjust
    rw [if_pos ⟨by simp, by simp [hpre], hmap⟩, if_pos ⟨hq, by simp [hblast]⟩]
  have hiff : (record_type_is_instr_boundary r out.last_record = true ∧
      out.in_kernel_code = false) ↔
      (record_type_is_instr_boundary r out.last_record = true ∧
        out.in_kernel_code = false ∧ out.in_context_switch_code = false) := by
    constructor
    · rintro ⟨hb, hk⟩
      refine ⟨hb, hk, ?_⟩
      cases hc : out.in_context_switch_code with
      | false => rfl
      | true => rw [hinv hc] at hk; cases hk
    · rintro ⟨hb, hk, -⟩
      exact ⟨hb, hk⟩
  refine ⟨hiff, ?_, ?_, hadj⟩
  · -- boundary outside kernel code
    intro hb hk
    have hbi : record_type_is_instr r = true := hb
    have hm : record_type_is_marker r = none := by
      cases r <;> simp_all [record_type_is_instr, record_type_is_marker]
    simp only [process_record_to_any, hm, if_pos hq] at hstep
    have hst := (Option.some.inj hstep).symm
    have hinstr : (switch_end_phase o out
        (syscall_completion_phase o out input r).1 cur_time).2.instrs_in_quantum
        = input.instrs_in_quantum := by
      rw [(switch_end_preserves o out
        (syscall_completion_phase o out input r).1 cur_time).2.2.2.1,
        (syscall_completion_preserves o out input r).1]
    have hkern : (switch_end_phase o out
        (syscall_completion_phase o out input r).1 cur_time).1.in_kernel_code
        = out.in_kernel_code :=
      (switch_end_preserves o out
        (syscall_completion_phase o out input r).1 cur_time).1
    have hstats : (switch_end_phase o out
        (syscall_completion_phase o out input r).1 cur_time).1.stats =
        out.stats :=
      (switch_end_preserves o out
        (syscall_completion_phase o out input r).1 cur_time).2.1
    have hspec := (instr_quantum_phase_spec o
      (switch_end_phase o out (syscall_completion_phase o out input r).1
        cur_time).1
      (switch_end_phase o out (syscall_completion_phase o out input r).1
        cur_time).2
      r (syscall_completion_phase o out input r).2.1).1
      (by rw [record_type_is_instr_boundary_eq]; exact hbi)
      (by rw [hkern]; exact hk)
    rw [hinstr, hstats] at hspec
    rw [hst]
    exact hspec
  · -- no countable boundary: nothing changes
    intro hneg
    rcases Option.eq_none_or_eq_some (record_type_is_marker r) with hm | ⟨⟨mt, mv⟩, hm⟩
    · simp only [process_record_to_any, hm, if_pos hq] at hstep
      have hst := (Option.some.inj hstep).symm
      have hinstr : (switch_end_phase o out
          (syscall_completion_phase o out input r).1
            cur_time).2.instrs_in_quantum = input.instrs_in_quantum := by
        rw [(switch_end_preserves o out
          (syscall_completion_phase o out input r).1 cur_time).2.2.2.1,
          (syscall_completion_preserves o out input r).1]
      have hkern : (switch_end_phase o out
          (syscall_completion_phase o out input r).1 cur_time).1.in_kernel_code
          = out.in_kernel_code :=
        (switch_end_preserves o out
          (syscall_completion_phase o out input r).1 cur_time).1
      have hstats : (switch_end_phase o out
          (syscall_completion_phase o out input r).1 cur_time).1.stats =
          out.stats :=
        (switch_end_preserves o out
          (syscall_completion_phase o out input r).1 cur_time).2.1
      have hspec := (instr_quantum_phase_spec o
        (switch_end_phase o out (syscall_completion_phase o out input r).1
          cur_time).1
        (switch_end_phase o out (syscall_completion_phase o out input r).1
          cur_time).2
        r (syscall_completion_phase o out input r).2.1).2
        (by
          rw [record_type_is_instr_boundary_eq, hkern]
          rw [record_type_is_instr_boundary_eq] at hneg
          exact hneg)
      rw [hinstr, hstats] at hspec
      rw [hst]
      exact ⟨hspec.1, hspec.2.1, hspec.2.2.2⟩
    · -- a marker record is never an instruction boundary
      have hbm : record_type_is_instr r = false := by
        cases r <;> simp_all [record_type_is_instr, record_type_is_marker]
      simp only [process_record_to_any, hm, if_pos hq] at hstep
      have hst := (Option.some.inj hstep).symm
      have hinstr : (process_marker o t2i
          (switch_end_phase o out (syscall_completion_phase o out input r).1
            cur_time).2
          (switch_end_phase o out (syscall_completion_phase o out input r).1
            cur_time).1 s mt mv).1.instrs_in_quantum =
          input.instrs_in_quantum := by
        rw [(process_marker_preserves o t2i _ _ s mt mv).1,
          (switch_end_preserves o out
            (syscall_completion_phase o out input r).1 cur_time).2.2.2.1,
          (syscall_completion_preserves o out input r).1]
      have hstats : (process_marker o t2i
          (switch_end_phase o out (syscall_completion_phase o out input r).1
            cur_time).2
          (switch_end_phase o out (syscall_completion_phase o out input r).1
            cur_time).1 s mt mv).2.1.stats.quantum_preempts =
          out.stats.quantum_preempts := by
        rw [(process_marker_preserves o t2i _ _ s mt mv).2.2.2]
        rw [(switch_end_preserves o out
          (syscall_completion_phase o out input r).1 cur_time).2.1]
      have hspec := (instr_quantum_phase_spec o
        (process_marker o t2i
          (switch_end_phase o out (syscall_completion_phase o out input r).1
            cur_time).2
          (switch_end_phase o out (syscall_completion_phase o out input r).1
            cur_time).1 s mt mv).2.1
        (process_marker o t2i
          (switch_end_phase o out (syscall_completion_phase o out input r).1
            cur_time).2
          (switch_end_phase o out (syscall_completion_phase o out input r).1
            cur_time).1 s mt mv).1
        r (syscall_completion_phase o out input r).2.1).2
        (by
          rw [record_type_is_instr_boundary_eq]
          rintro ⟨hcon, -⟩
          rw [hbm] at hcon
          cases hcon)
      rw [hinstr] at hspec
      rw [hst]
      refine ⟨hspec.1, hspec.2.1, ?_⟩
      rw [hspec.2.2.2, hstats]

/-- Options with an instruction quantum of two instructions; used by the C3
witness. -/
def quantumOptions : SchedOptions := { quantum_duration_instrs := 2 }

/-- Expected step result for the C3 witness: third instruction on a
two-instruction quantum preempts, resetting the counter and counting one
quantum preempt. -/
def quantumStepResult : StepResult :=
  ⟨{}, { stats := { quantum_preempts := 1 } }, {}, true, true, 0, 0⟩

/-- Witness for C3: a concrete instruction record that overflows a
two-instruction quantum. -/
theorem C3_witness :
    quantumStepResult.input.instrs_in_quantum =
        (if 2 + 1 > quantumOptions.quantum_duration_instrs then 0 else 2 + 1) ∧
      (quantumStepResult.preempt = true ↔
        2 + 1 > quantumOptions.quantum_duration_instrs) := by
  have h := C3_instr_quantum quantumOptions (fun _ _ => none) {}
    { instrs_in_quantum := 2 } {} (Record.instr 1 100 4) 7 quantumStepResult
    rfl (by decide) (by decide)
  have h2 := h.2.1 rfl rfl
  exact ⟨h2.1, h2.2.1⟩

/-- C10: whenever `pop_from_ready_queue` hands a non-null input to the
requesting output, that input's `blocked_time` has been reset to 0 and its
`unscheduled` flag to false (scheduler.cpp lines 2605-2613), so every input
handed to an output begins running unblocked and schedulable. -/
theorem C10_pop_resets_flags (for_output out_time : Nat) (s : SchedState)
    (inp : InputInfo)
    (h : (pop_from_ready_queue for_output out_time s).1 = some inp) :
    inp.blocked_time = 0 ∧ inp.unscheduled = false := by
  unfold pop_from_ready_queue at h
  simp only [Option.map_eq_some'] at h
  rcases h with ⟨x, -, hx⟩
  rw [← hx]
  exact ⟨rfl, rfl⟩

/-- Ready-queue entry for the C10 witness: blocked for 7 time units starting
at time 0 and flagged unscheduled (a timeout-bounded unschedule). -/
def blockedReadyInput : InputInfo :=
  { index := 3, queue_counter := 1, blocked_time := 7, unscheduled := true }

/-- Witness for C10: popping at time 50 (past the 7-unit blocked interval)
returns the entry with both flags cleared. -/
theorem C10_witness :
    ({ index := 3, queue_counter := 1 } : InputInfo).blocked_time = 0 ∧
      ({ index := 3, queue_counter := 1 } : InputInfo).unscheduled = false :=
  C10_pop_resets_flags 0 50 { ready := [blockedReadyInput], num_blocked := 1 }
    { index := 3, queue_counter := 1 } (by decide)

/-- The scan of `pop_from_ready_queue` chooses exactly the first entry, in
priority order, whose binding allows the output and whose blocked interval
has expired. -/
theorem popScan_res (fo ct : Nat) :
    ∀ l : List InputInfo,
      (popScan fo ct l).2.2.1 =
        l.find? (fun x => bindingAllows x fo && !stillBlocked ct x)
  | [] => rfl
  | x :: rest => by
    have ih := popScan_res fo ct rest
    rcases hrec : popScan fo ct rest with ⟨sk, bl, res, q⟩
    rw [hrec] at ih
    by_cases hba : bindingAllows x fo = true
    · by_cases hsb : stillBlocked ct x = true
      · simp [popScan, hba, hsb, hrec, List.find?, ← ih]
      · simp only [Bool.not_eq_true] at hsb
        simp [popScan, hba, hsb, List.find?]
    · simp only [Bool.not_eq_true] at hba
      simp [popScan, hba, hrec, List.find?, ← ih]

/-- Every binding-skipped entry of the scan was binding-excluded and comes
from the queue. -/
theorem popScan_skipped (fo ct : Nat) :
    ∀ l : List InputInfo, ∀ x ∈ (popScan fo ct l).1,
      bindingAllows x fo = false ∧ x ∈ l
  | [] => by simp [popScan]
  | y :: rest => by
    have ih := popScan_skipped fo ct rest
    rcases hrec : popScan fo ct rest with ⟨sk, bl, res, q⟩
    rw [hrec] at ih
    intro x hx
    by_cases hba : bindingAllows y fo = true
    · by_cases hsb : stillBlocked ct y = true
      · simp [popScan, hba, hsb, hrec] at hx
        rcases ih x hx with ⟨h1, h2⟩
        exact ⟨h1, List.mem_cons_of_mem _ h2⟩
      · simp only [Bool.not_eq_true] at hsb
        simp [popScan, hba, hsb] at hx
    · simp only [Bool.not_eq_true] at hba
      simp [popScan, hba, hrec] at hx
      rcases hx with hx | hx
      · subst hx
        exact ⟨hba, List.mem_cons_self _ _⟩
      · rcases ih x hx with ⟨h1, h2⟩
        exact ⟨h1, List.mem_cons_of_mem _ h2⟩

/-- Every still-blocked entry of the scan was binding-allowed, still blocked,
and comes from the queue. -/
theorem popScan_blocked (fo ct : Nat) :
    ∀ l : List InputInfo, ∀ x ∈ (popScan fo ct l).2.1,
      (bindingAllows x fo = true ∧ stillBlocked ct x = true) ∧ x ∈ l
  | [] => by simp [popScan]
  | y :: rest => by
    have ih := popScan_blocked fo ct rest
    rcases hrec : popScan fo ct rest with ⟨sk, bl, res, q⟩
    rw [hrec] at ih
    intro x hx
    by_cases hba : bindingAllows y fo = true
    · by_cases hsb : stillBlocked ct y = true
      · simp [popScan, hba, hsb, hrec] at hx
        rcases hx with hx | hx
        · subst hx
          exact ⟨⟨hba, hsb⟩, List.mem_cons_self _ _⟩
        · rcases ih x hx with ⟨h1, h2⟩
          exact ⟨h1, List.mem_cons_of_mem _ h2⟩
      · simp only [Bool.not_eq_true] at hsb
        simp [popScan, hba, hsb] at hx
    · simp only [Bool.not_eq_true] at hba
      simp [popScan, hba, hrec] at hx
      rcases ih x hx with ⟨h1, h2⟩
      exact ⟨h1, List.mem_cons_of_mem _ h2⟩

/-- The un-scanned remainder is a sublist of the queue. -/
theorem popScan_rest_sublist (fo ct : Nat) :
    ∀ l : List InputInfo, (popScan fo ct l).2.2.2.Sublist l
  | [] => by simp [popScan]
  | y :: rest => by
    have ih := popScan_rest_sublist fo ct rest
    rcases hrec : popScan fo ct rest with ⟨sk, bl, res, q⟩
    rw [hrec] at ih
    by_cases hba : bindingAllows y fo = true
    · by_cases hsb : stillBlocked ct y = true
      · simp only [popScan, hba, hsb, hrec]
        simpa using ih.trans (List.sublist_cons_self y rest)
      · simp only [Bool.not_eq_true] at hsb
        simp [popScan, hba, hsb]
    · simp only [Bool.not_eq_true] at hba
      simp only [popScan, hba, hrec]
      simpa using ih.trans (List.sublist_cons_self y rest)

/-- Every element of the queue ends up in one of the scan's four
components. -/
theorem popScan_cover (fo ct : Nat) :
    ∀ l : List InputInfo, ∀ x ∈ l,
      x ∈ (popScan fo ct l).1 ∨ x ∈ (popScan fo ct l).2.1 ∨
        (popScan fo ct l).2.2.1 = some x ∨ x ∈ (popScan fo ct l).2.2.2
  | [] => by simp
  | y :: rest => by
    have ih := popScan_cover fo ct rest
    rcases hrec : popScan fo ct rest with ⟨sk, bl, res, q⟩
    rw [hrec] at ih
    intro x hx
    rcases List.mem_cons.mp hx with hxy | hxrest
    · subst hxy
      by_cases hba : bindingAllows x fo = true
      · by_cases hsb : stillBlocked ct x = true
        · simp [popScan, hba, hsb, hrec]
        · simp only [Bool.not_eq_true] at hsb
          simp [popScan, hba, hsb]
      · simp only [Bool.not_eq_true] at hba
        simp [popScan, hba, hrec]
    · by_cases hba : bindingAllows y fo = true
      · by_cases hsb : stillBlocked ct y = true
        · simp only [popScan, hba, hsb, hrec]
          rcases ih x hxrest with h | h | h | h <;> simp_all
        · simp only [Bool.not_eq_true] at hsb
          simp [popScan, hba, hsb, hxrest]
      · simp only [Bool.not_eq_true] at hba
        simp only [popScan, hba, hrec]
        rcases ih x hxrest with h | h | h | h <;> simp_all

/-- Membership in a queue push. -/
theorem mem_rqPush {q : List InputInfo} {x y : InputInfo} :
    y ∈ rqPush q x ↔ y = x ∨ y ∈ q :=
  List.mem_orderedInsert queueLe

/-- Pushes preserve the entries already in the queue. -/
theorem mem_foldl_rqPush_base :
    ∀ (S q : List InputInfo) (x : InputInfo), x ∈ q → x ∈ S.foldl rqPush q
  | [], _, _, h => h
  | a :: S, q, x, h =>
    mem_foldl_rqPush_base S (rqPush q a) x (mem_rqPush.mpr (Or.inr h))

/-- Every pushed entry is in the resulting queue. -/
theorem mem_foldl_rqPush_self :
    ∀ (S q : List InputInfo) (x : InputInfo), x ∈ S → x ∈ S.foldl rqPush q
  | [], _, _, h => absurd h (List.not_mem_nil _)
  | a :: S, q, x, h => by
    rcases List.mem_cons.mp h with h | h
    · subst h
      exact mem_foldl_rqPush_base S (rqPush q x) x (mem_rqPush.mpr (Or.inl rfl))
    · exact mem_foldl_rqPush_self S (rqPush q a) x h

/-- A push keeps the queue sorted. -/
theorem sorted_rqPush {q : List InputInfo} (x : InputInfo)
    (h : q.Sorted queueLe) : (rqPush q x).Sorted queueLe :=
  h.orderedInsert x q

/-- Pushing a batch keeps the queue sorted. -/
theorem sorted_foldl_rqPush :
    ∀ (S q : List InputInfo), q.Sorted queueLe →
      (S.foldl rqPush q).Sorted queueLe
  | [], _, h => h
  | a :: S, q, h => sorted_foldl_rqPush S (rqPush q a) (sorted_rqPush a h)

/-- `add_to_ready_queue` preserves existing ready-queue entries. -/
theorem add_to_ready_queue_mem (s : SchedState) (y x : InputInfo)
    (h : x ∈ s.ready) : x ∈ (add_to_ready_queue s y).ready := by
  unfold add_to_ready_queue add_to_unscheduled_queue
  split_ifs <;> simp [rqPush, List.mem_orderedInsert, h]

/-- `add_to_ready_queue` never decreases the ready counter. -/
theorem add_to_ready_queue_counter_mono (s : SchedState) (y : InputInfo) :
    s.ready_counter ≤ (add_to_ready_queue s y).ready_counter := by
  unfold add_to_ready_queue add_to_unscheduled_queue
  split_ifs <;> simp

/-- `add_to_ready_queue` keeps the ready queue sorted. -/
theorem add_to_ready_queue_sorted (s : SchedState) (y : InputInfo)
    (h : s.ready.Sorted queueLe) :
    (add_to_ready_queue s y).ready.Sorted queueLe := by
  unfold add_to_ready_queue add_to_unscheduled_queue
  split_ifs <;> first
    | simpa using h
    | exact sorted_rqPush _ h

/-- Re-adding a batch preserves existing ready-queue entries. -/
theorem foldl_add_mem :
    ∀ (bl : List InputInfo) (s : SchedState) (x : InputInfo),
      x ∈ s.ready → x ∈ (bl.foldl add_to_ready_queue s).ready
  | [], _, _, h => h
  | a :: bl, s, x, h =>
    foldl_add_mem bl (add_to_ready_queue s a) x (add_to_ready_queue_mem s a x h)

/-- Re-adding a batch never decreases the ready counter. -/
theorem foldl_add_counter_mono :
    ∀ (bl : List InputInfo) (s : SchedState),
      s.ready_counter ≤ (bl.foldl add_to_ready_queue s).ready_counter
  | [], _ => le_refl _
  | a :: bl, s =>
    (add_to_ready_queue_counter_mono s a).trans
      (foldl_add_counter_mono bl (add_to_ready_queue s a))

/-- Re-adding a batch keeps the ready queue sorted. -/
theorem foldl_add_sorted :
    ∀ (bl : List InputInfo) (s : SchedState),
      s.ready.Sorted queueLe →
        (bl.foldl add_to_ready_queue s).ready.Sorted queueLe
  | [], _, h => h
  | a :: bl, s, h =>
    foldl_add_sorted bl (add_to_ready_queue s a) (add_to_ready_queue_sorted s a h)

/-- Every blocked entry re-added through `add_to_ready_queue` receives a
fresh queue counter, strictly above the counter value the queue held before
the batch. -/
theorem foldl_add_fresh :
    ∀ (bl : List InputInfo) (s : SchedState) (x : InputInfo), x ∈ bl →
      x.blocked_time > 0 →
      ∃ c, c > s.ready_counter ∧
        { x with queue_counter := c } ∈ (bl.foldl add_to_ready_queue s).ready
  | [], _, _, hmem, _ => absurd hmem (List.not_mem_nil _)
  | a :: bl, s, x, hmem, hbl => by
    rcases List.mem_cons.mp hmem with h | h
    · subst h
      refine ⟨s.ready_counter + 1, Nat.lt_succ_self _, ?_⟩
      refine foldl_add_mem bl (add_to_ready_queue s x) _ ?_
      unfold add_to_ready_queue add_to_unscheduled_queue
      rw [if_neg (by omega), if_pos hbl]
      exact mem_rqPush.mpr (Or.inl rfl)
    · rcases foldl_add_fresh bl (add_to_ready_queue s a) x h hbl with ⟨c, hc, hmem2⟩
      exact ⟨c, lt_of_le_of_lt (add_to_ready_queue_counter_mono s a) hc, hmem2⟩

/-- C4: `pop_from_ready_queue` scans the ready queue in priority order and
returns the first entry whose binding allows the requesting output and whose
blocked interval has expired; entries skipped because their binding excludes
the output remain in the final queue as the very same entries (original
`queue_counter`, preserving FIFO order, witnessed by the sorted-queue
preservation); still-blocked entries are re-inserted with a fresh counter
strictly above every counter issued before (the back of their priority
class); and when no candidate is found but at least one eligible entry was
still blocked, the call returns Idle with no input. -/
theorem C4_pop_from_ready_queue (fo out_time : Nat) (s : SchedState) :
    ((pop_from_ready_queue fo out_time s).1 =
      (s.ready.find? (fun x => bindingAllows x fo &&
          !stillBlocked (if s.num_blocked > 0 then out_time else 0) x)).map
        (fun x => { x with blocked_time := 0, unscheduled := false })) ∧
    ((pop_from_ready_queue fo out_time s).2.1 = StreamStatus.idle ↔
      (s.ready.find? (fun x => bindingAllows x fo &&
          !stillBlocked (if s.num_blocked > 0 then out_time else 0) x) = none ∧
        (popScan fo (if s.num_blocked > 0 then out_time else 0)
          s.ready).2.1 ≠ [])) ∧
    (∀ x ∈ s.ready, bindingAllows x fo = false →
      x ∈ (pop_from_ready_queue fo out_time s).2.2.ready) ∧
    (∀ x ∈ (popScan fo (if s.num_blocked > 0 then out_time else 0)
        s.ready).2.1,
      (bindingAllows x fo = true ∧
        stillBlocked (if s.num_blocked > 0 then out_time else 0) x = true) ∧
      ∃ c, c > s.ready_counter ∧
        { x with queue_counter := c } ∈
          (pop_from_ready_queue fo out_time s).2.2.ready) ∧
    (s.ready.Sorted queueLe →
      (pop_from_ready_queue fo out_time s).2.2.ready.Sorted queueLe) := by
  have hfind := popScan_res fo (if s.num_blocked > 0 then out_time else 0)
    s.ready
  have hres1 : (pop_from_ready_queue fo out_time s).1 =
      ((popScan fo (if s.num_blocked > 0 then out_time else 0)
        s.ready).2.2.1).map
        (fun x => { x with blocked_time := 0, unscheduled := false }) := rfl
  have hstat : (pop_from_ready_queue fo out_time s).2.1 =
      (if (popScan fo (if s.num_blocked > 0 then out_time else 0)
            s.ready).2.2.1 = none ∧
          (popScan fo (if s.num_blocked > 0 then out_time else 0)
            s.ready).2.1 ≠ [] then
        StreamStatus.idle
      else StreamStatus.ok) := rfl
  have hready : (pop_from_ready_queue fo out_time s).2.2.ready =
      ((popScan fo (if s.num_blocked > 0 then out_time else 0)
          s.ready).2.1.foldl add_to_ready_queue
        { s with
            ready := (popScan fo (if s.num_blocked > 0 then out_time else 0)
              s.ready).1.foldl rqPush
              (popScan fo (if s.num_blocked > 0 then out_time else 0)
                s.ready).2.2.2
            num_blocked := s.num_blocked -
              ((popScan fo (if s.num_blocked > 0 then out_time else 0)
                  s.ready).2.1.length +
                (match (popScan fo (if s.num_blocked > 0 then out_time else 0)
                    s.ready).2.2.1 with
                 | some x => if x.blocked_time > 0 then 1 else 0
                 | none => 0)) }).ready := rfl
  refine ⟨?_, ?_, ?_, ?_, ?_⟩
  · rw [hres1, hfind]
  · rw [hstat, hfind]
    by_cases hcond : (s.ready.find? (fun x => bindingAllows x fo &&
        !stillBlocked (if s.num_blocked > 0 then out_time else 0) x) = none ∧
        (popScan fo (if s.num_blocked > 0 then out_time else 0)
          s.ready).2.1 ≠ [])
    · rw [if_pos hcond]
      simp only [true_iff]
      exact hcond
    · rw [if_neg hcond]
      constructor
      · intro hcon
        cases hcon
      · intro hcon
        exact absurd hcon hcond
  · intro x hx hexcl
    rw [hready]
    refine foldl_add_mem _ _ x ?_
    rcases popScan_cover fo (if s.num_blocked > 0 then out_time else 0)
      s.ready x hx with h | h | h | h
    · exact mem_foldl_rqPush_self _ _ x h
    · have := (popScan_blocked fo
        (if s.num_blocked > 0 then out_time else 0) s.ready x h).1.1
      rw [this] at hexcl
      cases hexcl
    · rw [hfind] at h
      have hp := List.find?_some h
      rw [Bool.and_eq_true] at hp
      rw [hp.1] at hexcl
      cases hexcl
    · exact mem_foldl_rqPush_base _ _ x h
  · intro x hx
    have hprops := popScan_blocked fo
      (if s.num_blocked > 0 then out_time else 0) s.ready x hx
    refine ⟨hprops.1, ?_⟩
    have hbt : x.blocked_time > 0 := by
      have := hprops.1.2
      unfold stillBlocked at this
      simp only [Bool.and_eq_true, decide_eq_true_eq] at this
      exact this.1
    rcases foldl_add_fresh
      ((popScan fo (if s.num_blocked > 0 then out_time else 0) s.ready).2.1)
      { s with
          ready := (popScan fo (if s.num_blocked > 0 then out_time else 0)
            s.ready).1.foldl rqPush
            (popScan fo (if s.num_blocked > 0 then out_time else 0)
              s.ready).2.2.2
          num_blocked := s.num_blocked -
            ((popScan fo (if s.num_blocked > 0 then out_time else 0)
                s.ready).2.1.length +
              (match (popScan fo (if s.num_blocked > 0 then out_time else 0)
                  s.ready).2.2.1 with
               | some x => if x.blocked_time > 0 then 1 else 0
               | none => 0)) } x hx hbt with ⟨c, hc, hmem⟩
    rw [hready]
    exact ⟨c, hc, hmem⟩
  · intro hs
    rw [hready]
    apply foldl_add_sorted
    apply sorted_foldl_rqPush
    exact List.Pairwise.sublist
      (popScan_rest_sublist fo (if s.num_blocked > 0 then out_time else 0)
        s.ready) hs

/-- Ready-queue entry bound to output 1 only; used by the C4 witness. -/
def bindingInputA : InputInfo := { index := 1, queue_counter := 1, binding := [1] }

/-- Scheduler state for the C4 witness: a binding-excluded entry, a
still-blocked entry and an eligible entry, in FIFO order. -/
def popState : SchedState :=
  { ready := [bindingInputA,
      { index := 2, queue_counter := 2, blocked_time := 100 },
      { index := 3, queue_counter := 3 }]
    num_blocked := 1
    ready_counter := 5 }

/-- Witness for C4: output 0 pops the third entry (the first one allowed and
unblocked), the binding-excluded entry stays with its original counter, and
the resulting queue is still sorted. -/
theorem C4_witness :
    (pop_from_ready_queue 0 10 popState).1 =
        some { index := 3, queue_counter := 3 } ∧
      bindingInputA ∈ (pop_from_ready_queue 0 10 popState).2.2.ready ∧
      (pop_from_ready_queue 0 10 popState).2.2.ready.Sorted queueLe := by
  have h := C4_pop_from_ready_queue 0 10 popState
  refine ⟨?_, ?_, ?_⟩
  · rw [h.1]
    decide
  · exact h.2.2.1 bindingInputA (by decide) (by decide)
  · exact h.2.2.2.2 (by decide)

/-- The flush fold of `eof_or_idle` preserves existing ready-queue
entries. -/
theorem mem_flush_fold_base :
    ∀ (S q : List InputInfo) (x : InputInfo), x ∈ q →
      x ∈ S.foldl (fun q y => rqPush q { y with unscheduled := false }) q
  | [], _, _, h => h
  | a :: S, q, x, h =>
    mem_flush_fold_base S _ x (mem_rqPush.mpr (Or.inr h))

/-- Every entry of the unscheduled queue lands, flag cleared, in the flush
fold of `eof_or_idle`. -/
theorem mem_flush_fold :
    ∀ (S q : List InputInfo) (x : InputInfo), x ∈ S →
      { x with unscheduled := false } ∈
        S.foldl (fun q y => rqPush q { y with unscheduled := false }) q
  | [], _, _, h => absurd h (List.not_mem_nil _)
  | a :: S, q, x, h => by
    rcases List.mem_cons.mp h with h | h
    · subst h
      refine mem_flush_fold_base S _ _ ?_
      exact mem_rqPush.mpr (Or.inl rfl)
    · exact mem_flush_fold S _ x h

/-- `set_cur_input` with no new input and no current input does not touch the
scheduler state and preserves the output's wait timer. -/
theorem set_cur_input_none_none (o : SchedOptions) (outputIdx now : Nat)
    (out : OutputState) (s : SchedState) (hcur : out.cur_input = none) :
    (set_cur_input o outputIdx now out s none).2 = s ∧
      (set_cur_input o outputIdx now out s none).1.wait_start_time =
        out.wait_start_time := by
  unfold set_cur_input
  rw [hcur]
  split_ifs <;> exact ⟨rfl, rfl⟩

/-- C7 (amended): in `MAP_TO_ANY_OUTPUT`, whenever the dispatcher finds the ready
queue empty while the unscheduled queue is non-empty (and inputs remain
live), `eof_or_idle` returns Idle and: on the first such visit it starts the
output's wait timer from the output time; once the elapsed wait, scaled by
`time_units_per_us`, exceeds `block_time_max_us`, it moves every input of
the unscheduled queue back to the ready queue with its `unscheduled` flag
cleared and resets the timer; and until that bound is exceeded it leaves
both queues untouched, the output simply staying Idle. -/
theorem C7_unscheduled_flush (o : SchedOptions) (outputIdx now : Nat)
    (out : OutputState) (s : SchedState) (prev_input : Option Nat)
    (hmap : o.mapping = MappingMode.toAnyOutput)
    (hlive : s.live_input_count ≠ 0)
    (hready : s.ready = [])
    (hunsched : s.unscheduled ≠ [])
    (hcur : out.cur_input = none) :
    ((eof_or_idle o outputIdx now out s prev_input).1 = StreamStatus.idle) ∧
    (out.wait_start_time = 0 →
      ((eof_or_idle o outputIdx now out s prev_input).2.1.wait_start_time =
          out.cur_time ∧
        (eof_or_idle o outputIdx now out s prev_input).2.2 = s)) ∧
    (out.wait_start_time ≠ 0 →
      ((u64sub out.cur_time out.wait_start_time : ℚ) * o.time_units_per_us >
        (o.block_time_max_us : ℚ)) →
      ((eof_or_idle o outputIdx now out s prev_input).2.2.unscheduled = [] ∧
        (∀ x ∈ s.unscheduled,
          { x with unscheduled := false } ∈
            (eof_or_idle o outputIdx now out s prev_input).2.2.ready) ∧
        (eof_or_idle o outputIdx now out s prev_input).2.1.wait_start_time =
          0)) ∧
    (out.wait_start_time ≠ 0 →
      ¬((u64sub out.cur_time out.wait_start_time : ℚ) * o.time_units_per_us >
        (o.block_time_max_us : ℚ)) →
      ((eof_or_idle o outputIdx now out s prev_input).2.2 = s ∧
        (eof_or_idle o outputIdx now out s prev_input).2.1.wait_start_time =
          out.wait_start_time)) := by
  have hterm : ¬(o.mapping = MappingMode.toConsistentOutput ∨
      s.live_input_count = 0 ∨
      (o.mapping = MappingMode.asPreviously ∧
        s.live_replay_output_count = 0)) := by
    rw [hmap]
    rintro (h | h | ⟨h, -⟩)
    · cases h
    · exact hlive h
    · cases h
  by_cases hw : out.wait_start_time = 0
  · -- first visit
    refine ⟨?_, ?_, ?_, ?_⟩
    · unfold eof_or_idle
      rw [if_neg hterm]
    · intro _
      unfold eof_or_idle
      rw [if_neg hterm]
      simp only [hmap, if_pos rfl, if_pos (And.intro hready hunsched),
        if_pos hw]
      constructor
      · split_ifs <;>
          exact (set_cur_input_none_none o outputIdx now _ s (by
            simp [hcur])).2
      · split_ifs <;>
          exact (set_cur_input_none_none o outputIdx now _ s (by
            simp [hcur])).1
    · intro hcon
      exact absurd hw hcon
    · intro hcon
      exact absurd hw hcon
  · by_cases hel : ((u64sub out.cur_time out.wait_start_time : ℚ) *
        o.time_units_per_us > (o.block_time_max_us : ℚ))
    · -- flush
      refine ⟨?_, ?_, ?_, ?_⟩
      · unfold eof_or_idle
        rw [if_neg hterm]
      · intro hcon
        exact absurd hcon hw
      · intro _ _
        unfold eof_or_idle
        rw [if_neg hterm]
        simp only [hmap, if_pos rfl, if_pos (And.intro hready hunsched),
          if_neg hw, if_pos hel]
        have hstate : ∀ (outv : OutputState),
            outv.cur_input = none →
            (set_cur_input o outputIdx now outv
              { s with
                  ready := s.unscheduled.foldl
                    (fun q x => rqPush q { x with unscheduled := false })
                    s.ready
                  unscheduled := [] } none).2 =
              { s with
                  ready := s.unscheduled.foldl
                    (fun q x => rqPush q { x with unscheduled := false })
                    s.ready
                  unscheduled := [] } :=
          fun outv h => (set_cur_input_none_none o outputIdx now outv _ h).1
        refine ⟨?_, ?_, ?_⟩
        · split_ifs <;>
            rw [hstate _ (by simp [hcur])]
        · intro x hx
          split_ifs <;>
            · rw [hstate _ (by simp [hcur])]
              exact mem_flush_fold s.unscheduled s.ready x hx
        · split_ifs <;>
            exact (set_cur_input_none_none o outputIdx now _ _ (by
              simp [hcur])).2
      · intro _ hcon
        exact absurd hel hcon
    · -- still waiting
      refine ⟨?_, ?_, ?_, ?_⟩
      · unfold eof_or_idle
        rw [if_neg hterm]
      · intro hcon
        exact absurd hcon hw
      · intro _ hcon
        exact absurd hcon hel
      · intro _ _
        unfold eof_or_idle
        rw [if_neg hterm]
        simp only [hmap, if_pos rfl, if_pos (And.intro hready hunsched),
          if_neg hw, if_neg hel]
        constructor
        · split_ifs <;>
            exact (set_cur_input_none_none o outputIdx now _ s (by
              simp [hcur])).1
        · split_ifs <;>
            exact (set_cur_input_none_none o outputIdx now _ s (by
              simp [hcur])).2

/-- Options with a 1000-microsecond unscheduled-wait bound; used by the C7
witness. -/
def flushOptions : SchedOptions := { block_time_max_us := 1000 }

/-- An indefinitely unscheduled input; used by the C7 witness. -/
def unschedInput : InputInfo := { index := 4, queue_counter := 2, unscheduled := true }

/-- An output whose unscheduled-wait timer started at time 10, now at
time 60; used by the C7 witness. -/
def waitingOutput : OutputState := { cur_time := 60, wait_start_time := 10 }

/-- Scheduler state with an empty ready queue and one unscheduled input;
used by the C7 witness. -/
def flushState : SchedState := { unscheduled := [unschedInput], live_input_count := 1 }

/-- C7 counterexample: the flush of the unscheduled queue is triggered by the
elapsed wait multiplied by `time_units_per_us` exceeding `block_time_max_us`
(scheduler.cpp line 3835), not by `block_time_max_us` itself having elapsed:
with the default 100 units per microsecond and a 1000-microsecond bound, a
wait of only 50 elapsed time units (50 * 100 > 1000) already moves the
unscheduled input, flag cleared, back to the ready queue. -/
theorem C7_counterexample :
    u64sub waitingOutput.cur_time waitingOutput.wait_start_time = 50 ∧
      flushOptions.block_time_max_us = 1000 ∧
      (eof_or_idle flushOptions 0 99 waitingOutput
          flushState none).2.2.unscheduled = [] ∧
      { unschedInput with unscheduled := false } ∈
        (eof_or_idle flushOptions 0 99 waitingOutput
            flushState none).2.2.ready := by
  have hel : ((u64sub waitingOutput.cur_time
        waitingOutput.wait_start_time : ℚ) *
      flushOptions.time_units_per_us > (flushOptions.block_time_max_us : ℚ)) := by
    norm_num [u64sub, flushOptions, waitingOutput]
  have hres : (eof_or_idle flushOptions 0 99 waitingOutput
      flushState none).2.2 =
      { flushState with
          ready := [{ unschedInput with unscheduled := false }]
          unscheduled := [] } := by
    unfold eof_or_idle
    rw [if_neg (by decide)]
    rw [if_pos (by decide : flushOptions.mapping = MappingMode.toAnyOutput)]
    rw [if_pos (by decide : flushState.ready = [] ∧
      flushState.unscheduled ≠ [])]
    rw [if_neg (by decide : ¬waitingOutput.wait_start_time = 0)]
    rw [if_pos hel]
    rw [(set_cur_input_none_none flushOptions 0 99 _ _ rfl).1]
    decide
  refine ⟨by decide, by decide, ?_, ?_⟩
  · rw [hres]
  · rw [hres]
    decide

/-- Witness for C7: with 50 elapsed time units at 100 units per micro-second
against a 1000-microsecond bound, the visit flushes the unscheduled input
(flag cleared) into the ready queue and stays Idle. -/
theorem C7_witness :
    (eof_or_idle flushOptions 0 99 waitingOutput flushState none).1 =
        StreamStatus.idle ∧
      (eof_or_idle flushOptions 0 99 waitingOutput
        flushState none).2.2.unscheduled = [] ∧
      { unschedInput with unscheduled := false } ∈
        (eof_or_idle flushOptions 0 99 waitingOutput flushState none).2.2.ready := by
  have h := C7_unscheduled_flush flushOptions 0 99 waitingOutput flushState
    none rfl (by decide) rfl (by decide) rfl
  have h3 := h.2.2.1 (by decide)
    (by norm_num [u64sub, flushOptions, waitingOutput])
  exact ⟨h.1, h3.1, h3.2.1 unschedInput (by decide)⟩

/-- Re-installing the input an output already runs leaves the scheduler
state untouched (the early return of scheduler.cpp lines 2704-2705). -/
theorem set_cur_input_same (o : SchedOptions) (outputIdx now : Nat)
    (out : OutputState) (s : SchedState) (q n : InputInfo)
    (hcur : out.cur_input = some q) (hidx : n.index = q.index) :
    (set_cur_input o outputIdx now out s (some n)).2 = s ∧
      (set_cur_input o outputIdx now out s (some n)).1.cur_input = some n := by
  unfold set_cur_input
  rw [hcur]
  simp [hidx]

/-- `pick_finish` on the previous input itself counts a switch-nop and keeps
everything else in place. -/
theorem pick_finish_nop (o : SchedOptions) (outputIdx now : Nat)
    (p q : InputInfo) (out : OutputState) (s : SchedState) (miss : Bool)
    (hcur : out.cur_input = some q) (hidx : p.index = q.index) :
    (pick_finish o outputIdx now (some p.index) p out s miss).status =
        StreamStatus.ok ∧
      (pick_finish o outputIdx now (some p.index) p out s miss).sched = s ∧
      (pick_finish o outputIdx now (some p.index) p out s miss).out.cur_input =
        some p ∧
      (pick_finish o outputIdx now (some p.index) p out s miss).miss_logged =
        miss := by
  unfold pick_finish
  rw [if_pos rfl]
  have h := set_cur_input_same o outputIdx now
    { out with stats :=
        { out.stats with switch_nop := out.stats.switch_nop + 1 } }
    s q p (by simp [hcur]) hidx
  exact ⟨rfl, h.1, h.2, rfl⟩

/-- The selection loop with an empty ready queue, no blocked time and a live
previous input goes back to that input (scheduler.cpp lines 3065-3081 and
3157-3167). -/
theorem pick_loop_keep (o : SchedOptions) (outputIdx now : Nat) (miss : Bool)
    (fuel : Nat) (out : OutputState) (s : SchedState) (p : InputInfo)
    (hready : s.ready = [])
    (hcur : out.cur_input = some p)
    (hpeof : p.at_eof = false)
    (hpread : reader_at_end p.reader = false)
    (hpinit : p.needs_init = false) :
    pick_loop o outputIdx now 0 (some p.index) miss (fuel + 2) none out s =
      pick_finish o outputIdx now (some p.index) p out s miss := by
  have h2 : fuel + 2 = Nat.succ (Nat.succ fuel) := rfl
  rw [h2]
  simp only [pick_loop]
  rw [if_pos (show s.ready = [] ∧ True from ⟨hready, trivial⟩)]
  simp only [lookup_input, hcur]
  simp [hpinit, hpeof, hpread]

/-- Current input of the counterexample output: input 1 with a pending direct
switch to input 7. -/
def cexP : InputInfo :=
  { index := 1, switch_to_input := some 7, reader := { num_instrs := 10 } }

/-- A ready, higher-pop-order input 2 sitting in the ready queue. -/
def cexQ : InputInfo :=
  { index := 2, queue_counter := 1, reader := { num_instrs := 10 } }

/-- The direct-switch target, input 7, running on another output. -/
def cexT : InputInfo := { index := 7 }

/-- Counterexample output state: currently running input 1. -/
def cexOut : OutputState := { cur_input := some cexP, cur_time := 100 }

/-- Counterexample scheduler state: input 2 ready, input 7 on another output,
nothing unscheduled. -/
def cexSched : SchedState :=
  { ready := [cexQ], others := [cexT], ready_counter := 3,
    live_input_count := 3 }

/-- C6, counterexample: the current input of output 0 has a pending direct
switch to input 7, which sits in neither the ready queue nor the unscheduled
queue (it runs on another output).  `pick_next_input` does log the miss and
does set the target's `skip_next_unscheduled`, but the requesting output does
not keep its current input selected: the ready queue is non-empty, so normal
selection proceeds (scheduler.cpp lines 3063-3115) and installs ready input 2
in place of current input 1. -/
theorem C6_counterexample :
    cexOut.cur_input.map (fun x : InputInfo => x.switch_to_input) =
        some (some 7) ∧
      (findByIndex cexSched.ready 7).isNone = true ∧
      (findByIndex cexSched.unscheduled 7).isNone = true ∧
      (pick_next_input_to_any sampleOptions 0 100 0 cexOut
          cexSched).miss_logged = true ∧
      (pick_next_input_to_any sampleOptions 0 100 0 cexOut
            cexSched).sched.others.map
          (fun x : InputInfo => x.skip_next_unscheduled) = [true] ∧
      cexOut.cur_input.map (fun x : InputInfo => x.index) = some 1 ∧
      (pick_next_input_to_any sampleOptions 0 100 0 cexOut
            cexSched).out.cur_input.map (fun x : InputInfo => x.index) =
        some 2 := by
  decide

/-- C6, amended: in `MAP_TO_ANY_OUTPUT` mode, when `pick_next_input` consumes
a pending `switch_to_input` whose target is in neither the ready queue nor
the unscheduled queue, it logs a miss (scheduler.cpp lines 3052-3060) and
sets the target's `skip_next_unscheduled`; the requesting output keeps its
current input selected only in the no-other-candidate case: when the ready
queue is empty (and no blocked time was just imposed), the previous input —
live, initialized and not at EOF — is re-selected with an Ok status
(scheduler.cpp lines 3065-3081 and 3157-3167). -/
theorem C6_direct_switch_miss (o : SchedOptions) (outputIdx now : Nat)
    (out : OutputState) (s : SchedState) (p : InputInfo) (tgt : Nat)
    (hcur : out.cur_input = some p)
    (hsw : p.switch_to_input = some tgt)
    (hrt : findByIndex s.ready tgt = none)
    (hut : findByIndex s.unscheduled tgt = none)
    (hready : s.ready = [])
    (hpneq : p.index ≠ tgt)
    (hpeof : p.at_eof = false)
    (hpread : reader_at_end p.reader = false)
    (hpinit : p.needs_init = false) :
    (pick_next_input_to_any o outputIdx now 0 out s).miss_logged = true ∧
      (pick_next_input_to_any o outputIdx now 0 out s).sched =
        (mark_skip_next_unscheduled
            { out with cur_input := some { p with switch_to_input := none } }
            s tgt).2 ∧
      (pick_next_input_to_any o outputIdx now 0 out s).out.cur_input =
        some { p with switch_to_input := none } ∧
      (pick_next_input_to_any o outputIdx now 0 out s).status =
        StreamStatus.ok := by
  unfold pick_next_input_to_any
  simp only [hcur, Option.map_some', hsw, hrt, hut, gt_iff_lt, lt_irrefl,
    false_and, if_false]
  set p' := ({ p with switch_to_input := none } : InputInfo) with hp'
  set ms := mark_skip_next_unscheduled { out with cur_input := some p' } s tgt
    with hms
  have hready2 : ms.2.ready = [] := by
    rw [hms]
    simp [mark_skip_next_unscheduled, hready, updateByIndex]
  have hcur2 : ms.1.cur_input = some p' := by
    rw [hms]
    simp [mark_skip_next_unscheduled, hp', hpneq]
  have hlen : ms.2.ready.length + ms.2.unscheduled.length + 3 =
      ms.2.unscheduled.length + 1 + 2 := by
    rw [hready2]
    simp only [List.length_nil]
    omega
  rw [hlen]
  have hkeep : pick_loop o outputIdx now 0 (some p.index) true
      (ms.2.unscheduled.length + 1 + 2) none ms.1 ms.2 =
      pick_finish o outputIdx now (some p.index) p' ms.1 ms.2 true :=
    pick_loop_keep o outputIdx now true (ms.2.unscheduled.length + 1)
      ms.1 ms.2 p' hready2 hcur2 hpeof hpread hpinit
  rw [hkeep]
  have hfin := pick_finish_nop o outputIdx now p' p' ms.1 ms.2 true hcur2 rfl
  exact ⟨hfin.2.2.2, hfin.2.1, hfin.2.2.1, hfin.1⟩

/-- Current input of the miss-witness output: input 1 with a pending direct
switch to input 7. -/
def missP : InputInfo :=
  { index := 1, switch_to_input := some 7, reader := { num_instrs := 10 } }

/-- The direct-switch target of the miss witness, running on another
output. -/
def missT : InputInfo := { index := 7 }

/-- Miss-witness output state: currently running input 1. -/
def missOut : OutputState := { cur_input := some missP, cur_time := 100 }

/-- Miss-witness scheduler state: empty ready and unscheduled queues, the
target on another output. -/
def missSched : SchedState := { others := [missT], live_input_count := 2 }

/-- C6, witness: on the concrete miss scenario with empty queues, the miss is
logged, the target's `skip_next_unscheduled` is set through
`mark_skip_next_unscheduled`, and the output re-selects its current input
(with the switch request consumed) with an Ok status. -/
theorem C6_witness :
    (pick_next_input_to_any sampleOptions 0 100 0 missOut
        missSched).miss_logged = true ∧
      (pick_next_input_to_any sampleOptions 0 100 0 missOut
          missSched).sched =
        (mark_skip_next_unscheduled
            { missOut with
                cur_input := some { missP with switch_to_input := none } }
            missSched 7).2 ∧
      (pick_next_input_to_any sampleOptions 0 100 0 missOut
          missSched).out.cur_input =
        some { missP with switch_to_input := none } ∧
      (pick_next_input_to_any sampleOptions 0 100 0 missOut
          missSched).status = StreamStatus.ok :=
  C6_direct_switch_miss sampleOptions 0 100 missOut missSched missP 7 rfl rfl
    rfl rfl rfl (by decide) rfl rfl rfl

end Drm
